import Mathlib

set_option autoImplicit false
set_option linter.unusedVariables false

/-!
Verification development for the SGSIM stochastic ground-motion core.

The Python source is shallowly embedded as follows:
* machine floats whose exact values never matter for a verified property are
  modelled by exact rationals (`ℚ`); float operations that are genuinely
  transcendental (`np.sqrt`, `np.exp`, `np.log`, `scipy.special.beta`) are
  modelled over `ℝ` with the corresponding Mathlib functions;
* IEEE-754 exceptional values (inf / nan), which one claim is about, are
  modelled by an explicit extended-value type `ExtVal` whose arithmetic
  follows the IEEE rules on the exceptional values and is exact rational
  arithmetic on finite values;
* numpy arrays become `List`s, in-place `.fill` / slice assignment becomes
  functional update, and Python `@property` caches become `Option` fields;
* fallible operations (numpy shape errors, negative dimensions) return
  `Option` / `Except`;
* repository modules that are referenced but not present in the source tree
  (`sgsim.motion.signal_analysis`, `SGSIM.core.filter_engine`,
  `SGSIM.core.model_engine`) and third-party kernels (`numpy.random`,
  `scipy.fft.irfft`) are modelled from the specification's contracts; each
  such definition carries a doc comment saying exactly what was modelled.
-/

/-- Exact rational value of the IEEE-754 double nearest to pi (the value of
numpy's `np.pi`), used wherever the source multiplies by `np.pi`. -/
def piQ : ℚ := 884279719003555 / 281474976710656

/-- Modelled from the spec: `sgsim.motion.signal_analysis.get_time` is
repository code not under src/.  Spec: the time axis `t` has length `npts`,
uniform step `dt`, and starts at 0. -/
def get_time (npts : ℕ) (dt : ℚ) : List ℚ :=
  (List.range npts).map (fun i : ℕ => (i : ℚ) * dt)

/-- Modelled from the spec: `sgsim.motion.signal_analysis.get_freq` is
repository code not under src/.  Spec: the analysis angular-frequency axis
for an `n`-length real signal has length `n` (spec section 8: the k-th entry
is taken as the angular frequency 2*pi*k/(n*dt), zero at k = 0, positive
afterwards, up to Nyquist). -/
def get_freq (n : ℕ) (dt : ℚ) : List ℚ :=
  (List.range n).map (fun k : ℕ => 2 * piQ * (k : ℚ) / ((n : ℚ) * dt))

/-- The simulation-axis length computed by `DomainConfig.freq_sim`:
`npts_sim = int(2 ** np.ceil(np.log2(2 * npts)))`.  Over the integers the
ceiling of the base-2 logarithm is `Nat.clog 2`. -/
def npts_sim (npts : ℕ) : ℕ := 2 ^ Nat.clog 2 (2 * npts)

/-- The simulation frequency axis `freq_sim` of `DomainConfig`. -/
def freq_sim_val (npts : ℕ) (dt : ℚ) : List ℚ := get_freq (npts_sim npts) dt

/-- `DomainConfig` (src/sgsim/core/domain_config.py).  `__init__` stores
`npts` and `dt` exactly as given and initialises every lazy cache to `None`;
no validation is performed anywhere in the class. -/
structure DomainC where
  npts : ℤ
  dt : ℚ
  tC : Option (List ℚ)
  freqC : Option (List ℚ)
  freqSimC : Option (List ℚ)
  freqSimP2C : Option (List ℚ)
  freqMaskC : Option (List Bool)
  tpC : Option (List ℚ)
  freqP2C : Option (List ℚ)
  freqP4C : Option (List ℚ)
  freqN2C : Option (List ℚ)
  freqN4C : Option (List ℚ)
deriving DecidableEq

/-- `DomainConfig.__init__`: store the two scalars, reset the caches. -/
def DomainC.init (npts : ℤ) (dt : ℚ) : DomainC :=
  ⟨npts, dt, none, none, none, none, none, none, none, none, none, none⟩

/-- `DomainConfig._reset_cache`. -/
def DomainC.reset_cache (d : DomainC) : DomainC :=
  { d with tC := none, freqC := none, freqSimC := none, freqSimP2C := none,
           freqMaskC := none, tpC := none, freqP2C := none, freqP4C := none,
           freqN2C := none, freqN4C := none }

/-- The `npts` property setter: store the new value, reset the caches. -/
def DomainC.set_npts (d : DomainC) (v : ℤ) : DomainC :=
  ({ d with npts := v }).reset_cache

/-- The `dt` property setter: store the new value, reset the caches. -/
def DomainC.set_dt (d : DomainC) (v : ℚ) : DomainC :=
  ({ d with dt := v }).reset_cache

theorem get_time_length (n : ℕ) (d : ℚ) : (get_time n d).length = n := by
  rw [get_time, List.length_map, List.length_range]

theorem get_freq_length (n : ℕ) (d : ℚ) : (get_freq n d).length = n := by
  rw [get_freq, List.length_map, List.length_range]

/-- C2: for every grid with positive integer `npts` and positive `dt`, the
time axis `t` and analysis frequency axis `freq` both have length `npts`,
and the simulation frequency axis `freq_sim` has length equal to the
smallest power of two not less than `2*npts` (hence at least `2*npts`). -/
theorem C2_grid_axis_lengths (npts : ℕ) (dt : ℚ)
    (hn : 1 ≤ npts) (hdt : 0 < dt) :
    (get_time npts dt).length = npts ∧
    (get_freq npts dt).length = npts ∧
    (freq_sim_val npts dt).length = npts_sim npts ∧
    2 * npts ≤ (freq_sim_val npts dt).length ∧
    (∀ k : ℕ, 2 * npts ≤ 2 ^ k → (freq_sim_val npts dt).length ≤ 2 ^ k) := by
  have hlen_sim : (freq_sim_val npts dt).length = npts_sim npts := get_freq_length _ _
  refine ⟨get_time_length _ _, get_freq_length _ _, hlen_sim, ?_, ?_⟩
  · rw [hlen_sim]
    exact Nat.le_pow_clog (by norm_num) (2 * npts)
  · intro k hk
    rw [hlen_sim]
    exact Nat.pow_le_pow_right (by norm_num)
      ((Nat.le_pow_iff_clog_le (by norm_num)).1 hk)

/-- Witness for C2 at `npts = 3`, `dt = 1/2`: the simulation axis has the
power-of-two length 8 = next_pow2(6). -/
theorem C2_grid_axis_lengths_witness :
    (1 ≤ 3 ∧ (0 : ℚ) < 1/2) ∧
    ((get_time 3 (1/2)).length = 3 ∧
     (get_freq 3 (1/2)).length = 3 ∧
     (freq_sim_val 3 (1/2)).length = npts_sim 3 ∧
     2 * 3 ≤ (freq_sim_val 3 (1/2)).length ∧
     (∀ k : ℕ, 2 * 3 ≤ 2 ^ k → (freq_sim_val 3 (1/2)).length ≤ 2 ^ k)) :=
  ⟨⟨by norm_num, by norm_num⟩, C2_grid_axis_lengths 3 (1/2) (by norm_num) (by norm_num)⟩

/-- C3 counterexample: constructing a grid with `npts = -1` and
`dt = -1/2` is not rejected -- the constructor succeeds and stores the
non-positive values unchanged; likewise the `npts` and `dt` setters accept
non-positive values.  This refutes the claim that non-positive `npts`/`dt`
are rejected with an error at construction/assignment time. -/
theorem C3_no_validation_counterexample :
    (DomainC.init (-1) (-1/2)).npts = -1 ∧
    (DomainC.init (-1) (-1/2)).dt = -1/2 ∧
    ((DomainC.init 4 1).set_npts 0).npts = 0 ∧
    ((DomainC.init 4 1).set_dt (-1)).dt = -1 := by
  refine ⟨rfl, by norm_num [DomainC.init], rfl, by norm_num [DomainC.init, DomainC.set_dt, DomainC.reset_cache]⟩

/-- C3 amended: construction and assignment of `npts`/`dt` perform no
validation at all -- every value, including non-positive ones, is silently
stored exactly as given (derived-axis computations may only fail later, on
read). -/
theorem C3_amended_no_validation (npts v : ℤ) (dt w : ℚ) :
    ((DomainC.init npts dt).npts = npts ∧ (DomainC.init npts dt).dt = dt) ∧
    ((DomainC.init npts dt).set_npts v).npts = v ∧
    ((DomainC.init npts dt).set_dt w).dt = w := by
  exact ⟨⟨rfl, rfl⟩, rfl, rfl⟩

/-! ## ModelConfig (src/sgsim/core/model_config.py)

`ModelConfig` inherits `DomainConfig`; the embedding flattens the
inheritance chain into one state record.  The five parametric functions
fixed at construction take the time axis and a parameter vector to a
series. -/

/-- The integer-argument time axis: `get_time` is only meaningful for a
non-negative sample count (negative counts never reach it on any path the
claims exercise). -/
def get_timeZ (npts : ℤ) (dt : ℚ) : List ℚ := get_time npts.toNat dt

/-- The integer-argument analysis frequency axis. -/
def get_freqZ (npts : ℤ) (dt : ℚ) : List ℚ := get_freq npts.toNat dt

/-- The simulation frequency axis for an integer stored `npts`.  For
`npts = 0` numpy evaluates `int(2 ** ceil(log2(0))) = 0`, giving an empty
axis; for negative `npts` the read raises (handled at the accessor). -/
def freq_sim_valZ (npts : ℤ) (dt : ℚ) : List ℚ :=
  if npts ≤ 0 then [] else freq_sim_val npts.toNat dt

/-- Modelled from the spec: `sgsim.motion.signal_analysis.get_freq_mask` is
repository code not under src/.  Spec: a `(low, high)` Hz pair produces a
boolean selection over `freq` (an angular-frequency axis). -/
def get_freq_mask (freq : List ℚ) (lo hi : ℚ) : List Bool :=
  freq.map (fun w => decide (lo * (2 * piQ) ≤ w ∧ w ≤ hi * (2 * piQ)))

/-- `np.arange(start, stop, step)` over exact rationals (positive step):
entries `start + k*step` for `0 ≤ k < ceil((stop-start)/step)`. -/
def arangeQ (start stop step : ℚ) : List ℚ :=
  (List.range (Int.toNat ⌈(stop - start) / step⌉)).map
    (fun k : ℕ => start + (k : ℚ) * step)

/-- The flattened `ModelConfig` state: the `DomainConfig` scalars and lazy
caches, the five parametric functions, the five stored series, the stored
raw parameter vectors, and the twenty derived arrays allocated by
`__init__` (`np.zeros((20, npts))` rows plus `fas = zeros_like(freq)`). -/
structure MCState where
  npts : ℤ
  dt : ℚ
  tC : Option (List ℚ)
  freqC : Option (List ℚ)
  freqSimC : Option (List ℚ)
  freqSimP2C : Option (List ℚ)
  freqMaskC : Option (List Bool)
  tpC : Option (List ℚ)
  freqP2C : Option (List ℚ)
  freqP4C : Option (List ℚ)
  freqN2C : Option (List ℚ)
  freqN4C : Option (List ℚ)
  mdl_func : List ℚ → List ℚ → List ℚ
  wu_func : List ℚ → List ℚ → List ℚ
  zu_func : List ℚ → List ℚ → List ℚ
  wl_func : List ℚ → List ℚ → List ℚ
  zl_func : List ℚ → List ℚ → List ℚ
  mdl : List ℚ
  wu : List ℚ
  zu : List ℚ
  wl : List ℚ
  zl : List ℚ
  variance : List ℚ
  variance_dot : List ℚ
  variance_2dot : List ℚ
  variance_bar : List ℚ
  variance_2bar : List ℚ
  ce : List ℚ
  mle_ac : List ℚ
  mle_vel : List ℚ
  mle_disp : List ℚ
  mzc_ac : List ℚ
  mzc_vel : List ℚ
  mzc_disp : List ℚ
  pmnm_ac : List ℚ
  pmnm_vel : List ℚ
  pmnm_disp : List ℚ
  fas : List ℚ
  mdl_params : List ℚ
  wu_params : List ℚ
  zu_params : List ℚ
  wl_params : List ℚ
  zl_params : List ℚ

/-- An all-zero array of the same length (the effect of `arr.fill(0.0)`). -/
def zeroed (x : List ℚ) : List ℚ := List.replicate x.length 0

/-- `ModelConfig.__init__`: `np.zeros((20, npts))` fails for a negative
`npts` (negative dimensions); otherwise all twenty rows are zero arrays of
length `npts`, and `fas = np.zeros_like(self.freq)` materialises the `freq`
cache. -/
def MCState.init (npts : ℤ) (dt : ℚ)
    (f1 f2 f3 f4 f5 : List ℚ → List ℚ → List ℚ) : Option MCState :=
  if npts < 0 then none else
  some { npts := npts, dt := dt
         tC := none, freqC := some (get_freqZ npts dt), freqSimC := none
         freqSimP2C := none, freqMaskC := none, tpC := none
         freqP2C := none, freqP4C := none, freqN2C := none, freqN4C := none
         mdl_func := f1, wu_func := f2, zu_func := f3, wl_func := f4, zl_func := f5
         mdl := List.replicate npts.toNat 0
         wu := List.replicate npts.toNat 0
         zu := List.replicate npts.toNat 0
         wl := List.replicate npts.toNat 0
         zl := List.replicate npts.toNat 0
         variance := List.replicate npts.toNat 0
         variance_dot := List.replicate npts.toNat 0
         variance_2dot := List.replicate npts.toNat 0
         variance_bar := List.replicate npts.toNat 0
         variance_2bar := List.replicate npts.toNat 0
         ce := List.replicate npts.toNat 0
         mle_ac := List.replicate npts.toNat 0
         mle_vel := List.replicate npts.toNat 0
         mle_disp := List.replicate npts.toNat 0
         mzc_ac := List.replicate npts.toNat 0
         mzc_vel := List.replicate npts.toNat 0
         mzc_disp := List.replicate npts.toNat 0
         pmnm_ac := List.replicate npts.toNat 0
         pmnm_vel := List.replicate npts.toNat 0
         pmnm_disp := List.replicate npts.toNat 0
         fas := List.replicate (get_freqZ npts dt).length 0
         mdl_params := [], wu_params := [], zu_params := [], wl_params := [], zl_params := [] }

/-- `DomainConfig._reset_cache` on the flattened state. -/
def MCState.reset_cache (s : MCState) : MCState :=
  { s with tC := none, freqC := none, freqSimC := none, freqSimP2C := none,
           freqMaskC := none, tpC := none, freqP2C := none, freqP4C := none,
           freqN2C := none, freqN4C := none }

/-- `ModelConfig._reset_attributes`: fill the sixteen derived-statistics
arrays with zeros in place. -/
def MCState.reset_attributes (s : MCState) : MCState :=
  { s with fas := zeroed s.fas, ce := zeroed s.ce,
           mle_ac := zeroed s.mle_ac, mle_vel := zeroed s.mle_vel,
           mle_disp := zeroed s.mle_disp,
           mzc_ac := zeroed s.mzc_ac, mzc_vel := zeroed s.mzc_vel,
           mzc_disp := zeroed s.mzc_disp,
           pmnm_ac := zeroed s.pmnm_ac, pmnm_vel := zeroed s.pmnm_vel,
           pmnm_disp := zeroed s.pmnm_disp,
           variance := zeroed s.variance, variance_dot := zeroed s.variance_dot,
           variance_2dot := zeroed s.variance_2dot,
           variance_bar := zeroed s.variance_bar,
           variance_2bar := zeroed s.variance_2bar }

/-- The `npts` setter: store and reset the domain caches (the series and
statistics arrays are not reallocated). -/
def MCState.set_npts (s : MCState) (v : ℤ) : MCState :=
  MCState.reset_cache { s with npts := v }

/-- The `dt` setter: store and reset the domain caches. -/
def MCState.set_dt (s : MCState) (v : ℚ) : MCState :=
  MCState.reset_cache { s with dt := v }

/-- The `t` property: return the cache, computing and storing it first when
absent. -/
def MCState.read_t (s : MCState) : List ℚ × MCState :=
  match s.tC with
  | some v => (v, s)
  | none => (get_timeZ s.npts s.dt, { s with tC := some (get_timeZ s.npts s.dt) })

/-- The `freq` property. -/
def MCState.read_freq (s : MCState) : List ℚ × MCState :=
  match s.freqC with
  | some v => (v, s)
  | none => (get_freqZ s.npts s.dt, { s with freqC := some (get_freqZ s.npts s.dt) })

/-- The `freq_sim` property; on a cache miss, `np.log2(2*npts)` of a
negative `npts` is a nan whose `int()` conversion raises. -/
def MCState.read_freq_sim (s : MCState) : Option (List ℚ × MCState) :=
  match s.freqSimC with
  | some v => some (v, s)
  | none =>
      if s.npts < 0 then none
      else some (freq_sim_valZ s.npts s.dt,
                 { s with freqSimC := some (freq_sim_valZ s.npts s.dt) })

/-- The `freq_sim_p2` property (`freq_sim ** 2`, reading `freq_sim` first). -/
def MCState.read_freq_sim_p2 (s : MCState) : Option (List ℚ × MCState) :=
  match s.freqSimP2C with
  | some v => some (v, s)
  | none =>
      (s.read_freq_sim).map (fun p =>
        ((p.1).map (fun w => w ^ 2),
         { p.2 with freqSimP2C := some ((p.1).map (fun w => w ^ 2)) }))

/-- The `freq_p2` property (`freq ** 2`, reading `freq` first). -/
def MCState.read_freq_p2 (s : MCState) : List ℚ × MCState :=
  match s.freqP2C with
  | some v => (v, s)
  | none =>
      let p := s.read_freq
      ((p.1).map (fun w => w ^ 2),
       { p.2 with freqP2C := some ((p.1).map (fun w => w ^ 2)) })

/-- The `freq_p4` property (`freq ** 4`). -/
def MCState.read_freq_p4 (s : MCState) : List ℚ × MCState :=
  match s.freqP4C with
  | some v => (v, s)
  | none =>
      let p := s.read_freq
      ((p.1).map (fun w => w ^ 4),
       { p.2 with freqP4C := some ((p.1).map (fun w => w ^ 4)) })

/-- The `freq_n2` property (`freq[1:] ** -2`: reciprocal squares excluding
the zero bin). -/
def MCState.read_freq_n2 (s : MCState) : List ℚ × MCState :=
  match s.freqN2C with
  | some v => (v, s)
  | none =>
      let p := s.read_freq
      (((p.1).drop 1).map (fun w => (w ^ 2)⁻¹),
       { p.2 with freqN2C := some (((p.1).drop 1).map (fun w => (w ^ 2)⁻¹)) })

/-- The `freq_n4` property (`freq[1:] ** -4`). -/
def MCState.read_freq_n4 (s : MCState) : List ℚ × MCState :=
  match s.freqN4C with
  | some v => (v, s)
  | none =>
      let p := s.read_freq
      (((p.1).drop 1).map (fun w => (w ^ 4)⁻¹),
       { p.2 with freqN4C := some (((p.1).drop 1).map (fun w => (w ^ 4)⁻¹)) })

/-- The `freq_mask` setter: build the boolean selection from the current
`freq` (materialising it) and the `(low, high)` Hz pair. -/
def MCState.set_freq_mask (s : MCState) (lo hi : ℚ) : MCState :=
  let p := s.read_freq
  { p.2 with freqMaskC := some (get_freq_mask p.1 lo hi) }

/-- The `freq_mask` getter: on a miss, install the default 0.1 to 25 Hz
band first. -/
def MCState.read_freq_mask (s : MCState) : MCState :=
  match s.freqMaskC with
  | some _ => s
  | none => s.set_freq_mask (1/10) 25

/-- The `tp` setter: `np.arange` over the given period range. -/
def MCState.set_tp (s : MCState) (a b c : ℚ) : MCState :=
  { s with tpC := some (arangeQ a b c) }

/-- The `tp` getter: on a miss, install the default (0.04, 10.04, 0.01)
range first. -/
def MCState.read_tp (s : MCState) : MCState :=
  match s.tpC with
  | some _ => s
  | none => s.set_tp (4/100) (1004/100) (1/100)

/-- numpy slice assignment `dst[:] = src`: `src` must have the destination
length or be a length-1 broadcast; any other length raises. -/
def slice_assign (dst src : List ℚ) : Option (List ℚ) :=
  if src.length = dst.length then some src
  else if src.length = 1 then some (List.replicate dst.length (src.headD 0))
  else none

/-- The `mdl` setter: evaluate the stored parametric function on the time
axis (materialising it), slice-assign into the stored series, record the
raw parameters, and reset all derived statistics. -/
def MCState.set_mdl (s : MCState) (params : List ℚ) : Option MCState :=
  let p := s.read_t
  (slice_assign (p.2).mdl ((p.2).mdl_func p.1 params)).map (fun series =>
    MCState.reset_attributes { p.2 with mdl := series, mdl_params := params })

/-- The `wu` setter: as `mdl`, then convert to angular frequency by
multiplying the stored series by `2*pi` before the reset. -/
def MCState.set_wu (s : MCState) (params : List ℚ) : Option MCState :=
  let p := s.read_t
  (slice_assign (p.2).wu ((p.2).wu_func p.1 params)).map (fun series =>
    MCState.reset_attributes
      { p.2 with wu := series.map (fun x => x * (2 * piQ)), wu_params := params })

/-- The `wl` setter (angular conversion as for `wu`). -/
def MCState.set_wl (s : MCState) (params : List ℚ) : Option MCState :=
  let p := s.read_t
  (slice_assign (p.2).wl ((p.2).wl_func p.1 params)).map (fun series =>
    MCState.reset_attributes
      { p.2 with wl := series.map (fun x => x * (2 * piQ)), wl_params := params })

/-- The `zu` setter. -/
def MCState.set_zu (s : MCState) (params : List ℚ) : Option MCState :=
  let p := s.read_t
  (slice_assign (p.2).zu ((p.2).zu_func p.1 params)).map (fun series =>
    MCState.reset_attributes { p.2 with zu := series, zu_params := params })

/-- The `zl` setter. -/
def MCState.set_zl (s : MCState) (params : List ℚ) : Option MCState :=
  let p := s.read_t
  (slice_assign (p.2).zl ((p.2).zl_func p.1 params)).map (fun series =>
    MCState.reset_attributes { p.2 with zl := series, zl_params := params })

/-- The public operations on a `ModelConfig` instance: the two scalar
setters, the five series setters, the cache-materialising property reads,
and the band/period setters. -/
inductive MOp where
  | set_npts (v : ℤ)
  | set_dt (v : ℚ)
  | set_mdl (p : List ℚ)
  | set_wu (p : List ℚ)
  | set_zu (p : List ℚ)
  | set_wl (p : List ℚ)
  | set_zl (p : List ℚ)
  | read_t
  | read_freq
  | read_freq_sim
  | read_freq_sim_p2
  | read_freq_p2
  | read_freq_p4
  | read_freq_n2
  | read_freq_n4
  | read_freq_mask
  | set_freq_mask (lo hi : ℚ)
  | read_tp
  | set_tp (a b c : ℚ)

/-- One public operation; `none` when the underlying numpy call raises. -/
def MCState.step (s : MCState) : MOp → Option MCState
  | .set_npts v => some (s.set_npts v)
  | .set_dt v => some (s.set_dt v)
  | .set_mdl p => s.set_mdl p
  | .set_wu p => s.set_wu p
  | .set_zu p => s.set_zu p
  | .set_wl p => s.set_wl p
  | .set_zl p => s.set_zl p
  | .read_t => some (s.read_t).2
  | .read_freq => some (s.read_freq).2
  | .read_freq_sim => (s.read_freq_sim).map Prod.snd
  | .read_freq_sim_p2 => (s.read_freq_sim_p2).map Prod.snd
  | .read_freq_p2 => some (s.read_freq_p2).2
  | .read_freq_p4 => some (s.read_freq_p4).2
  | .read_freq_n2 => some (s.read_freq_n2).2
  | .read_freq_n4 => some (s.read_freq_n4).2
  | .read_freq_mask => some s.read_freq_mask
  | .set_freq_mask lo hi => some (s.set_freq_mask lo hi)
  | .read_tp => some s.read_tp
  | .set_tp a b c => some (s.set_tp a b c)

/-- A sequence of public operations, stopping at the first error. -/
def MCState.run (s : MCState) : List MOp → Option MCState
  | [] => some s
  | op :: rest => (s.step op).bind (fun s1 => s1.run rest)

/-- Every materialised grid cache holds exactly the value derived from the
currently stored `npts`/`dt`. -/
def cache_consistent (s : MCState) : Prop :=
  (∀ v, s.tC = some v → v = get_timeZ s.npts s.dt) ∧
  (∀ v, s.freqC = some v → v = get_freqZ s.npts s.dt) ∧
  (∀ v, s.freqSimC = some v → v = freq_sim_valZ s.npts s.dt) ∧
  (∀ v, s.freqSimP2C = some v → v = (freq_sim_valZ s.npts s.dt).map (fun w => w ^ 2)) ∧
  (∀ v, s.freqP2C = some v → v = (get_freqZ s.npts s.dt).map (fun w => w ^ 2)) ∧
  (∀ v, s.freqP4C = some v → v = (get_freqZ s.npts s.dt).map (fun w => w ^ 4)) ∧
  (∀ v, s.freqN2C = some v → v = ((get_freqZ s.npts s.dt).drop 1).map (fun w => (w ^ 2)⁻¹)) ∧
  (∀ v, s.freqN4C = some v → v = ((get_freqZ s.npts s.dt).drop 1).map (fun w => (w ^ 4)⁻¹)) ∧
  (∀ v, s.freqMaskC = some v → ∃ lo hi, v = get_freq_mask (get_freqZ s.npts s.dt) lo hi) ∧
  (∀ v, s.tpC = some v → ∃ a b c, v = arangeQ a b c)

/-- The five stored series and the sixteen derived-statistics arrays all
have length `L`. -/
def series_lengths (s : MCState) (L : ℕ) : Prop :=
  s.mdl.length = L ∧ s.wu.length = L ∧ s.zu.length = L ∧ s.wl.length = L ∧
  s.zl.length = L ∧ s.variance.length = L ∧ s.variance_dot.length = L ∧
  s.variance_2dot.length = L ∧ s.variance_bar.length = L ∧
  s.variance_2bar.length = L ∧ s.ce.length = L ∧ s.mle_ac.length = L ∧
  s.mle_vel.length = L ∧ s.mle_disp.length = L ∧ s.mzc_ac.length = L ∧
  s.mzc_vel.length = L ∧ s.mzc_disp.length = L ∧ s.pmnm_ac.length = L ∧
  s.pmnm_vel.length = L ∧ s.pmnm_disp.length = L ∧ s.fas.length = L

theorem zeroed_length (l : List ℚ) : (zeroed l).length = l.length := by
  rw [zeroed, List.length_replicate]

theorem zeroed_self (l : List ℚ) : zeroed l = List.replicate (zeroed l).length 0 := by
  rw [zeroed_length, zeroed]

theorem slice_assign_length {dst src out : List ℚ}
    (h : slice_assign dst src = some out) : out.length = dst.length := by
  unfold slice_assign at h
  split at h
  next h1 =>
    cases h
    exact h1
  next =>
    split at h
    next =>
      cases h
      exact List.length_replicate _ _
    next => cases h

theorem read_t_snd (s : MCState) :
    (s.read_t).2 = s ∨ (s.read_t).2 = { s with tC := some (get_timeZ s.npts s.dt) } := by
  cases hT : s.tC with
  | none => right; simp [MCState.read_t, hT]
  | some v => left; simp [MCState.read_t, hT]

theorem cache_consistent_reset (s : MCState) : cache_consistent s.reset_cache := by
  refine ⟨?_, ?_, ?_, ?_, ?_, ?_, ?_, ?_, ?_, ?_⟩ <;>
    intro v hv <;> simp [MCState.reset_cache] at hv

theorem cache_consistent_read_t {s : MCState} (hc : cache_consistent s) :
    cache_consistent (s.read_t).2 := by
  rcases read_t_snd s with hr | hr <;> rw [hr]
  · exact hc
  · obtain ⟨c1, c2, c3, c4, c5, c6, c7, c8, c9, c10⟩ := hc
    exact ⟨fun v hv => (Option.some.inj hv).symm, c2, c3, c4, c5, c6, c7, c8, c9, c10⟩

theorem series_lengths_read_t {s : MCState} {L : ℕ} (h : series_lengths s L) :
    series_lengths (s.read_t).2 L := by
  rcases read_t_snd s with hr | hr <;> rw [hr] <;> exact h

/-- Every single public operation preserves grid-cache consistency and the
lengths of the model's series/statistics arrays (which are never
reallocated). -/
theorem step_preserves_inv (s s1 : MCState) (op : MOp) (L : ℕ)
    (hc : cache_consistent s) (hl : series_lengths s L)
    (h : s.step op = some s1) :
    cache_consistent s1 ∧ series_lengths s1 L := by
  cases op with
  | set_npts v =>
      simp only [MCState.step, Option.some.injEq] at h
      subst h
      refine ⟨cache_consistent_reset _, ?_⟩
      exact hl
  | set_dt v =>
      simp only [MCState.step, Option.some.injEq] at h
      subst h
      refine ⟨cache_consistent_reset _, ?_⟩
      exact hl
  | set_mdl p =>
      simp only [MCState.step] at h
      unfold MCState.set_mdl at h
      rw [Option.map_eq_some'] at h
      obtain ⟨series, hsa, hs1⟩ := h
      have hlr := series_lengths_read_t (L := L) (s := s) hl
      have hlen : series.length = L := by
        rw [slice_assign_length hsa]
        exact hlr.1
      subst hs1
      obtain ⟨l1, l2, l3, l4, l5, l6, l7, l8, l9, l10, l11, l12, l13, l14,
        l15, l16, l17, l18, l19, l20, l21⟩ := hlr
      exact ⟨cache_consistent_read_t hc,
        hlen, l2, l3, l4, l5,
        (zeroed_length _).trans l6, (zeroed_length _).trans l7,
        (zeroed_length _).trans l8, (zeroed_length _).trans l9,
        (zeroed_length _).trans l10, (zeroed_length _).trans l11,
        (zeroed_length _).trans l12, (zeroed_length _).trans l13,
        (zeroed_length _).trans l14, (zeroed_length _).trans l15,
        (zeroed_length _).trans l16, (zeroed_length _).trans l17,
        (zeroed_length _).trans l18, (zeroed_length _).trans l19,
        (zeroed_length _).trans l20, (zeroed_length _).trans l21⟩
  | set_wu p =>
      simp only [MCState.step] at h
      unfold MCState.set_wu at h
      rw [Option.map_eq_some'] at h
      obtain ⟨series, hsa, hs1⟩ := h
      have hlr := series_lengths_read_t (L := L) (s := s) hl
      have hlen : (series.map (fun x => x * (2 * piQ))).length = L := by
        rw [List.length_map, slice_assign_length hsa]
        exact hlr.2.1
      subst hs1
      obtain ⟨l1, l2, l3, l4, l5, l6, l7, l8, l9, l10, l11, l12, l13, l14,
        l15, l16, l17, l18, l19, l20, l21⟩ := hlr
      exact ⟨cache_consistent_read_t hc,
        l1, hlen, l3, l4, l5,
        (zeroed_length _).trans l6, (zeroed_length _).trans l7,
        (zeroed_length _).trans l8, (zeroed_length _).trans l9,
        (zeroed_length _).trans l10, (zeroed_length _).trans l11,
        (zeroed_length _).trans l12, (zeroed_length _).trans l13,
        (zeroed_length _).trans l14, (zeroed_length _).trans l15,
        (zeroed_length _).trans l16, (zeroed_length _).trans l17,
        (zeroed_length _).trans l18, (zeroed_length _).trans l19,
        (zeroed_length _).trans l20, (zeroed_length _).trans l21⟩
  | set_zu p =>
      simp only [MCState.step] at h
      unfold MCState.set_zu at h
      rw [Option.map_eq_some'] at h
      obtain ⟨series, hsa, hs1⟩ := h
      have hlr := series_lengths_read_t (L := L) (s := s) hl
      have hlen : series.length = L := by
        rw [slice_assign_length hsa]
        exact hlr.2.2.1
      subst hs1
      obtain ⟨l1, l2, l3, l4, l5, l6, l7, l8, l9, l10, l11, l12, l13, l14,
        l15, l16, l17, l18, l19, l20, l21⟩ := hlr
      exact ⟨cache_consistent_read_t hc,
        l1, l2, hlen, l4, l5,
        (zeroed_length _).trans l6, (zeroed_length _).trans l7,
        (zeroed_length _).trans l8, (zeroed_length _).trans l9,
        (zeroed_length _).trans l10, (zeroed_length _).trans l11,
        (zeroed_length _).trans l12, (zeroed_length _).trans l13,
        (zeroed_length _).trans l14, (zeroed_length _).trans l15,
        (zeroed_length _).trans l16, (zeroed_length _).trans l17,
        (zeroed_length _).trans l18, (zeroed_length _).trans l19,
        (zeroed_length _).trans l20, (zeroed_length _).trans l21⟩
  | set_wl p =>
      simp only [MCState.step] at h
      unfold MCState.set_wl at h
      rw [Option.map_eq_some'] at h
      obtain ⟨series, hsa, hs1⟩ := h
      have hlr := series_lengths_read_t (L := L) (s := s) hl
      have hlen : (series.map (fun x => x * (2 * piQ))).length = L := by
        rw [List.length_map, slice_assign_length hsa]
        exact hlr.2.2.2.1
      subst hs1
      obtain ⟨l1, l2, l3, l4, l5, l6, l7, l8, l9, l10, l11, l12, l13, l14,
        l15, l16, l17, l18, l19, l20, l21⟩ := hlr
      exact ⟨cache_consistent_read_t hc,
        l1, l2, l3, hlen, l5,
        (zeroed_length _).trans l6, (zeroed_length _).trans l7,
        (zeroed_length _).trans l8, (zeroed_length _).trans l9,
        (zeroed_length _).trans l10, (zeroed_length _).trans l11,
        (zeroed_length _).trans l12, (zeroed_length _).trans l13,
        (zeroed_length _).trans l14, (zeroed_length _).trans l15,
        (zeroed_length _).trans l16, (zeroed_length _).trans l17,
        (zeroed_length _).trans l18, (zeroed_length _).trans l19,
        (zeroed_length _).trans l20, (zeroed_length _).trans l21⟩
  | set_zl p =>
      simp only [MCState.step] at h
      unfold MCState.set_zl at h
      rw [Option.map_eq_some'] at h
      obtain ⟨series, hsa, hs1⟩ := h
      have hlr := series_lengths_read_t (L := L) (s := s) hl
      have hlen : series.length = L := by
        rw [slice_assign_length hsa]
        exact hlr.2.2.2.2.1
      subst hs1
      obtain ⟨l1, l2, l3, l4, l5, l6, l7, l8, l9, l10, l11, l12, l13, l14,
        l15, l16, l17, l18, l19, l20, l21⟩ := hlr
      exact ⟨cache_consistent_read_t hc,
        l1, l2, l3, l4, hlen,
        (zeroed_length _).trans l6, (zeroed_length _).trans l7,
        (zeroed_length _).trans l8, (zeroed_length _).trans l9,
        (zeroed_length _).trans l10, (zeroed_length _).trans l11,
        (zeroed_length _).trans l12, (zeroed_length _).trans l13,
        (zeroed_length _).trans l14, (zeroed_length _).trans l15,
        (zeroed_length _).trans l16, (zeroed_length _).trans l17,
        (zeroed_length _).trans l18, (zeroed_length _).trans l19,
        (zeroed_length _).trans l20, (zeroed_length _).trans l21⟩
  | read_t =>
      simp only [MCState.step, Option.some.injEq] at h
      subst h
      exact ⟨cache_consistent_read_t hc, series_lengths_read_t hl⟩
  | read_freq =>
      obtain ⟨c1, c2, c3, c4, c5, c6, c7, c8, c9, c10⟩ := hc
      rcases hT : s.freqC with _ | v <;>
        simp only [MCState.step, MCState.read_freq, hT, Option.some.injEq] at h <;>
        subst h
      · exact ⟨⟨c1, fun v hv => (Option.some.inj hv).symm, c3, c4, c5, c6, c7, c8, c9, c10⟩, hl⟩
      · exact ⟨⟨c1, c2, c3, c4, c5, c6, c7, c8, c9, c10⟩, hl⟩
  | read_freq_sim =>
      obtain ⟨c1, c2, c3, c4, c5, c6, c7, c8, c9, c10⟩ := hc
      rcases hT : s.freqSimC with _ | v
      · by_cases hn : s.npts < 0
        · simp [MCState.step, MCState.read_freq_sim, hT, hn] at h
        · simp only [MCState.step, MCState.read_freq_sim, hT, hn, if_neg,
            ite_false, Option.map_some', Option.some.injEq] at h
          subst h
          exact ⟨⟨c1, c2, fun v hv => (Option.some.inj hv).symm, c4, c5, c6, c7, c8, c9, c10⟩, hl⟩
      · simp only [MCState.step, MCState.read_freq_sim, hT, Option.map_some',
          Option.some.injEq] at h
        subst h
        exact ⟨⟨c1, c2, c3, c4, c5, c6, c7, c8, c9, c10⟩, hl⟩
  | read_freq_sim_p2 =>
      obtain ⟨c1, c2, c3, c4, c5, c6, c7, c8, c9, c10⟩ := hc
      rcases hP : s.freqSimP2C with _ | v
      · rcases hT : s.freqSimC with _ | w
        · by_cases hn : s.npts < 0
          · simp [MCState.step, MCState.read_freq_sim_p2, MCState.read_freq_sim, hP, hT, hn] at h
          · simp only [MCState.step, MCState.read_freq_sim_p2, MCState.read_freq_sim,
              hP, hT, hn, ite_false, Option.map_some', Option.some.injEq] at h
            subst h
            exact ⟨⟨c1, c2, fun v hv => (Option.some.inj hv).symm,
              fun v hv => (Option.some.inj hv).symm, c5, c6, c7, c8, c9, c10⟩, hl⟩
        · have hw : w = freq_sim_valZ s.npts s.dt := c3 w hT
          simp only [MCState.step, MCState.read_freq_sim_p2, MCState.read_freq_sim,
            hP, hT, Option.map_some', Option.some.injEq] at h
          subst h
          refine ⟨⟨c1, c2, fun v hv => (Option.some.inj hv) ▸ hw, ?_, c5, c6, c7, c8, c9, c10⟩, hl⟩
          intro v hv
          rw [← Option.some.inj hv, hw]
      · simp only [MCState.step, MCState.read_freq_sim_p2, hP, Option.map_some',
          Option.some.injEq] at h
        subst h
        exact ⟨⟨c1, c2, c3, c4, c5, c6, c7, c8, c9, c10⟩, hl⟩
  | read_freq_p2 =>
      obtain ⟨c1, c2, c3, c4, c5, c6, c7, c8, c9, c10⟩ := hc
      rcases hP : s.freqP2C with _ | v
      · rcases hT : s.freqC with _ | w
        · simp only [MCState.step, MCState.read_freq_p2, MCState.read_freq, hP, hT,
            Option.some.injEq] at h
          subst h
          exact ⟨⟨c1, fun v hv => (Option.some.inj hv).symm, c3, c4,
            fun v hv => (Option.some.inj hv).symm, c6, c7, c8, c9, c10⟩, hl⟩
        · have hw : w = get_freqZ s.npts s.dt := c2 w hT
          simp only [MCState.step, MCState.read_freq_p2, MCState.read_freq, hP, hT,
            Option.some.injEq] at h
          subst h
          refine ⟨⟨c1, fun v hv => (Option.some.inj hv) ▸ hw, c3, c4, ?_, c6, c7, c8, c9, c10⟩, hl⟩
          intro v hv
          rw [← Option.some.inj hv, hw]
      · simp only [MCState.step, MCState.read_freq_p2, hP, Option.some.injEq] at h
        subst h
        exact ⟨⟨c1, c2, c3, c4, c5, c6, c7, c8, c9, c10⟩, hl⟩
  | read_freq_p4 =>
      obtain ⟨c1, c2, c3, c4, c5, c6, c7, c8, c9, c10⟩ := hc
      rcases hP : s.freqP4C with _ | v
      · rcases hT : s.freqC with _ | w
        · simp only [MCState.step, MCState.read_freq_p4, MCState.read_freq, hP, hT,
            Option.some.injEq] at h
          subst h
          exact ⟨⟨c1, fun v hv => (Option.some.inj hv).symm, c3, c4, c5,
            fun v hv => (Option.some.inj hv).symm, c7, c8, c9, c10⟩, hl⟩
        · have hw : w = get_freqZ s.npts s.dt := c2 w hT
          simp only [MCState.step, MCState.read_freq_p4, MCState.read_freq, hP, hT,
            Option.some.injEq] at h
          subst h
          refine ⟨⟨c1, fun v hv => (Option.some.inj hv) ▸ hw, c3, c4, c5, ?_, c7, c8, c9, c10⟩, hl⟩
          intro v hv
          rw [← Option.some.inj hv, hw]
      · simp only [MCState.step, MCState.read_freq_p4, hP, Option.some.injEq] at h
        subst h
        exact ⟨⟨c1, c2, c3, c4, c5, c6, c7, c8, c9, c10⟩, hl⟩
  | read_freq_n2 =>
      obtain ⟨c1, c2, c3, c4, c5, c6, c7, c8, c9, c10⟩ := hc
      rcases hP : s.freqN2C with _ | v
      · rcases hT : s.freqC with _ | w
        · simp only [MCState.step, MCState.read_freq_n2, MCState.read_freq, hP, hT,
            Option.some.injEq] at h
          subst h
          exact ⟨⟨c1, fun v hv => (Option.some.inj hv).symm, c3, c4, c5, c6,
            fun v hv => (Option.some.inj hv).symm, c8, c9, c10⟩, hl⟩
        · have hw : w = get_freqZ s.npts s.dt := c2 w hT
          simp only [MCState.step, MCState.read_freq_n2, MCState.read_freq, hP, hT,
            Option.some.injEq] at h
          subst h
          refine ⟨⟨c1, fun v hv => (Option.some.inj hv) ▸ hw, c3, c4, c5, c6, ?_, c8, c9, c10⟩, hl⟩
          intro v hv
          rw [← Option.some.inj hv, hw]
      · simp only [MCState.step, MCState.read_freq_n2, hP, Option.some.injEq] at h
        subst h
        exact ⟨⟨c1, c2, c3, c4, c5, c6, c7, c8, c9, c10⟩, hl⟩
  | read_freq_n4 =>
      obtain ⟨c1, c2, c3, c4, c5, c6, c7, c8, c9, c10⟩ := hc
      rcases hP : s.freqN4C with _ | v
      · rcases hT : s.freqC with _ | w
        · simp only [MCState.step, MCState.read_freq_n4, MCState.read_freq, hP, hT,
            Option.some.injEq] at h
          subst h
          exact ⟨⟨c1, fun v hv => (Option.some.inj hv).symm, c3, c4, c5, c6, c7,
            fun v hv => (Option.some.inj hv).symm, c9, c10⟩, hl⟩
        · have hw : w = get_freqZ s.npts s.dt := c2 w hT
          simp only [MCState.step, MCState.read_freq_n4, MCState.read_freq, hP, hT,
            Option.some.injEq] at h
          subst h
          refine ⟨⟨c1, fun v hv => (Option.some.inj hv) ▸ hw, c3, c4, c5, c6, c7, ?_, c9, c10⟩, hl⟩
          intro v hv
          rw [← Option.some.inj hv, hw]
      · simp only [MCState.step, MCState.read_freq_n4, hP, Option.some.injEq] at h
        subst h
        exact ⟨⟨c1, c2, c3, c4, c5, c6, c7, c8, c9, c10⟩, hl⟩
  | read_freq_mask =>
      obtain ⟨c1, c2, c3, c4, c5, c6, c7, c8, c9, c10⟩ := hc
      rcases hP : s.freqMaskC with _ | v
      · rcases hT : s.freqC with _ | w
        · simp only [MCState.step, MCState.read_freq_mask, MCState.set_freq_mask,
            MCState.read_freq, hP, hT, Option.some.injEq] at h
          subst h
          exact ⟨⟨c1, fun v hv => (Option.some.inj hv).symm, c3, c4, c5, c6, c7, c8,
            fun v hv => ⟨1/10, 25, (Option.some.inj hv).symm⟩, c10⟩, hl⟩
        · have hw : w = get_freqZ s.npts s.dt := c2 w hT
          simp only [MCState.step, MCState.read_freq_mask, MCState.set_freq_mask,
            MCState.read_freq, hP, hT, Option.some.injEq] at h
          subst h
          refine ⟨⟨c1, fun v hv => (Option.some.inj hv) ▸ hw, c3, c4, c5, c6, c7, c8, ?_, c10⟩, hl⟩
          intro v hv
          exact ⟨1/10, 25, by rw [← Option.some.inj hv, hw]⟩
      · simp only [MCState.step, MCState.read_freq_mask, hP, Option.some.injEq] at h
        subst h
        exact ⟨⟨c1, c2, c3, c4, c5, c6, c7, c8, c9, c10⟩, hl⟩
  | set_freq_mask lo hi =>
      obtain ⟨c1, c2, c3, c4, c5, c6, c7, c8, c9, c10⟩ := hc
      rcases hT : s.freqC with _ | w
      · simp only [MCState.step, MCState.set_freq_mask, MCState.read_freq, hT,
          Option.some.injEq] at h
        subst h
        exact ⟨⟨c1, fun v hv => (Option.some.inj hv).symm, c3, c4, c5, c6, c7, c8,
          fun v hv => ⟨lo, hi, (Option.some.inj hv).symm⟩, c10⟩, hl⟩
      · have hw : w = get_freqZ s.npts s.dt := c2 w hT
        simp only [MCState.step, MCState.set_freq_mask, MCState.read_freq, hT,
          Option.some.injEq] at h
        subst h
        refine ⟨⟨c1, fun v hv => (Option.some.inj hv) ▸ hw, c3, c4, c5, c6, c7, c8, ?_, c10⟩, hl⟩
        intro v hv
        exact ⟨lo, hi, by rw [← Option.some.inj hv, hw]⟩
  | read_tp =>
      obtain ⟨c1, c2, c3, c4, c5, c6, c7, c8, c9, c10⟩ := hc
      rcases hP : s.tpC with _ | v <;>
        simp only [MCState.step, MCState.read_tp, MCState.set_tp, hP,
          Option.some.injEq] at h <;>
        subst h
      · exact ⟨⟨c1, c2, c3, c4, c5, c6, c7, c8, c9,
          fun v hv => ⟨4/100, 1004/100, 1/100, (Option.some.inj hv).symm⟩⟩, hl⟩
      · exact ⟨⟨c1, c2, c3, c4, c5, c6, c7, c8, c9, c10⟩, hl⟩
  | set_tp a b c =>
      obtain ⟨c1, c2, c3, c4, c5, c6, c7, c8, c9, c10⟩ := hc
      simp only [MCState.step, MCState.set_tp, Option.some.injEq] at h
      subst h
      exact ⟨⟨c1, c2, c3, c4, c5, c6, c7, c8, c9,
        fun v hv => ⟨a, b, c, (Option.some.inj hv).symm⟩⟩, hl⟩

/-- Sequences of public operations preserve the invariant. -/
theorem run_preserves_inv (ops : List MOp) (s s1 : MCState) (L : ℕ)
    (hc : cache_consistent s) (hl : series_lengths s L)
    (h : s.run ops = some s1) :
    cache_consistent s1 ∧ series_lengths s1 L := by
  induction ops generalizing s with
  | nil =>
      simp only [MCState.run, Option.some.injEq] at h
      subst h
      exact ⟨hc, hl⟩
  | cons op rest ih =>
      rw [MCState.run] at h
      rcases hst : s.step op with _ | s2
      · rw [hst] at h
        cases h
      · rw [hst] at h
        simp only [Option.some_bind] at h
        obtain ⟨hc2, hl2⟩ := step_preserves_inv s s2 op L hc hl hst
        exact ih s2 hc2 hl2 h

/-- `ModelConfig.__init__` establishes the invariant: the `freq` cache is
materialised consistently and all twenty-one arrays have length `npts`. -/
theorem init_establishes_inv (npts : ℤ) (dt : ℚ)
    (f1 f2 f3 f4 f5 : List ℚ → List ℚ → List ℚ) (s0 : MCState)
    (h : MCState.init npts dt f1 f2 f3 f4 f5 = some s0) :
    cache_consistent s0 ∧ series_lengths s0 npts.toNat := by
  unfold MCState.init at h
  split at h
  · cases h
  · rw [Option.some.injEq] at h
    subst h
    constructor
    · refine ⟨?_, ?_, ?_, ?_, ?_, ?_, ?_, ?_, ?_, ?_⟩ <;> intro v hv
      · cases hv
      · exact (Option.some.inj hv).symm
      all_goals cases hv
    · refine ⟨?_, ?_, ?_, ?_, ?_, ?_, ?_, ?_, ?_, ?_, ?_, ?_, ?_, ?_, ?_, ?_, ?_, ?_, ?_, ?_, ?_⟩ <;>
        first
          | exact List.length_replicate _ _
          | · rw [List.length_replicate]
              exact get_freq_length _ _

/-- A constant-valued parametric function used for the concrete
counterexample instance (the shape of the function is irrelevant to the
lengths at issue). -/
def constF : List ℚ → List ℚ → List ℚ := fun t _params => t.map (fun _ => 1)

/-- The concrete reachable state used to refute C9: construct with
`npts = 2, dt = 1`, then assign `npts = 3`. -/
def C9state : Option MCState :=
  (MCState.init 2 1 constF constF constF constF constF).bind
    (fun s0 => s0.run [MOp.set_npts 3])

/-- C9 counterexample: after constructing a model with `npts = 2` and then
assigning `npts = 3`, the stored `npts` is 3 while the stored series `mdl`
still has length 2 -- the series and statistics arrays are not reallocated,
so they do not track the currently stored `npts` as the claim requires. -/
theorem C9_stale_series_counterexample :
    C9state.map (fun s => (s.npts, s.mdl.length)) = some (3, 2) := by
  rfl

/-- C9 amended: along every sequence of public operations from a
successfully constructed model, the grid caches (t, freq, freq_sim, the
four power helpers, the band mask and the period axis) are always
consistent with the currently stored `npts`/`dt`, while the five series and
sixteen statistics arrays keep their construction-time length `npts0`
forever (they are never reallocated, even after `npts` is reassigned). -/
theorem C9_amended_invariant (npts : ℤ) (dt : ℚ)
    (f1 f2 f3 f4 f5 : List ℚ → List ℚ → List ℚ) (s0 s1 : MCState)
    (ops : List MOp)
    (h0 : MCState.init npts dt f1 f2 f3 f4 f5 = some s0)
    (h1 : s0.run ops = some s1) :
    cache_consistent s1 ∧ series_lengths s1 npts.toNat := by
  obtain ⟨hc0, hl0⟩ := init_establishes_inv npts dt f1 f2 f3 f4 f5 s0 h0
  exact run_preserves_inv ops s0 s1 npts.toNat hc0 hl0 h1

/-- All sixteen derived-statistics arrays (`fas`, `ce`, the nine
extrema-rate cumulative curves, and the five variance arrays) are all-zero. -/
def stats_zeroed (s : MCState) : Prop :=
  s.fas = List.replicate s.fas.length 0 ∧
  s.ce = List.replicate s.ce.length 0 ∧
  s.mle_ac = List.replicate s.mle_ac.length 0 ∧
  s.mle_vel = List.replicate s.mle_vel.length 0 ∧
  s.mle_disp = List.replicate s.mle_disp.length 0 ∧
  s.mzc_ac = List.replicate s.mzc_ac.length 0 ∧
  s.mzc_vel = List.replicate s.mzc_vel.length 0 ∧
  s.mzc_disp = List.replicate s.mzc_disp.length 0 ∧
  s.pmnm_ac = List.replicate s.pmnm_ac.length 0 ∧
  s.pmnm_vel = List.replicate s.pmnm_vel.length 0 ∧
  s.pmnm_disp = List.replicate s.pmnm_disp.length 0 ∧
  s.variance = List.replicate s.variance.length 0 ∧
  s.variance_dot = List.replicate s.variance_dot.length 0 ∧
  s.variance_2dot = List.replicate s.variance_2dot.length 0 ∧
  s.variance_bar = List.replicate s.variance_bar.length 0 ∧
  s.variance_2bar = List.replicate s.variance_2bar.length 0

theorem stats_zeroed_reset_attributes (x : MCState) :
    stats_zeroed x.reset_attributes := by
  refine ⟨?_, ?_, ?_, ?_, ?_, ?_, ?_, ?_, ?_, ?_, ?_, ?_, ?_, ?_, ?_, ?_⟩ <;>
    exact zeroed_self _

theorem read_t_mdl (s : MCState) : ((s.read_t).2).mdl = s.mdl := by
  rcases read_t_snd s with hr | hr <;> rw [hr]

theorem read_t_wu (s : MCState) : ((s.read_t).2).wu = s.wu := by
  rcases read_t_snd s with hr | hr <;> rw [hr]

theorem read_t_zu (s : MCState) : ((s.read_t).2).zu = s.zu := by
  rcases read_t_snd s with hr | hr <;> rw [hr]

theorem read_t_wl (s : MCState) : ((s.read_t).2).wl = s.wl := by
  rcases read_t_snd s with hr | hr <;> rw [hr]

theorem read_t_zl (s : MCState) : ((s.read_t).2).zl = s.zl := by
  rcases read_t_snd s with hr | hr <;> rw [hr]

/-- C1: for every model instance, each of the five series setters
(`mdl`, `wu`, `zu`, `wl`, `zl`), on a successful assignment, zeroes every
derived statistic (`fas`, `ce`, the extrema-rate cumulative curves, and the
five variance arrays) and leaves the stored series of the other four
quantities unchanged. -/
theorem C1_setter_frame_effect (s : MCState) (p1 p2 p3 p4 p5 : List ℚ)
    (s1 s2 s3 s4 s5 : MCState)
    (h1 : s.set_mdl p1 = some s1) (h2 : s.set_wu p2 = some s2)
    (h3 : s.set_zu p3 = some s3) (h4 : s.set_wl p4 = some s4)
    (h5 : s.set_zl p5 = some s5) :
    (stats_zeroed s1 ∧ s1.wu = s.wu ∧ s1.zu = s.zu ∧ s1.wl = s.wl ∧ s1.zl = s.zl) ∧
    (stats_zeroed s2 ∧ s2.mdl = s.mdl ∧ s2.zu = s.zu ∧ s2.wl = s.wl ∧ s2.zl = s.zl) ∧
    (stats_zeroed s3 ∧ s3.mdl = s.mdl ∧ s3.wu = s.wu ∧ s3.wl = s.wl ∧ s3.zl = s.zl) ∧
    (stats_zeroed s4 ∧ s4.mdl = s.mdl ∧ s4.wu = s.wu ∧ s4.zu = s.zu ∧ s4.zl = s.zl) ∧
    (stats_zeroed s5 ∧ s5.mdl = s.mdl ∧ s5.wu = s.wu ∧ s5.zu = s.zu ∧ s5.wl = s.wl) := by
  refine ⟨?_, ?_, ?_, ?_, ?_⟩
  · unfold MCState.set_mdl at h1
    rw [Option.map_eq_some'] at h1
    obtain ⟨series, hsa, hs⟩ := h1
    subst hs
    exact ⟨stats_zeroed_reset_attributes _, read_t_wu s, read_t_zu s, read_t_wl s, read_t_zl s⟩
  · unfold MCState.set_wu at h2
    rw [Option.map_eq_some'] at h2
    obtain ⟨series, hsa, hs⟩ := h2
    subst hs
    exact ⟨stats_zeroed_reset_attributes _, read_t_mdl s, read_t_zu s, read_t_wl s, read_t_zl s⟩
  · unfold MCState.set_zu at h3
    rw [Option.map_eq_some'] at h3
    obtain ⟨series, hsa, hs⟩ := h3
    subst hs
    exact ⟨stats_zeroed_reset_attributes _, read_t_mdl s, read_t_wu s, read_t_wl s, read_t_zl s⟩
  · unfold MCState.set_wl at h4
    rw [Option.map_eq_some'] at h4
    obtain ⟨series, hsa, hs⟩ := h4
    subst hs
    exact ⟨stats_zeroed_reset_attributes _, read_t_mdl s, read_t_wu s, read_t_zu s, read_t_zl s⟩
  · unfold MCState.set_zl at h5
    rw [Option.map_eq_some'] at h5
    obtain ⟨series, hsa, hs⟩ := h5
    subst hs
    exact ⟨stats_zeroed_reset_attributes _, read_t_mdl s, read_t_wu s, read_t_zu s, read_t_wl s⟩

/-- A default state used only to extract values from `Option`s in witness
statements. -/
def MCState.empty : MCState where
  npts := 0
  dt := 0
  tC := none
  freqC := none
  freqSimC := none
  freqSimP2C := none
  freqMaskC := none
  tpC := none
  freqP2C := none
  freqP4C := none
  freqN2C := none
  freqN4C := none
  mdl_func := fun _ _ => []
  wu_func := fun _ _ => []
  zu_func := fun _ _ => []
  wl_func := fun _ _ => []
  zl_func := fun _ _ => []
  mdl := []
  wu := []
  zu := []
  wl := []
  zl := []
  variance := []
  variance_dot := []
  variance_2dot := []
  variance_bar := []
  variance_2bar := []
  ce := []
  mle_ac := []
  mle_vel := []
  mle_disp := []
  mzc_ac := []
  mzc_vel := []
  mzc_disp := []
  pmnm_ac := []
  pmnm_vel := []
  pmnm_disp := []
  fas := []
  mdl_params := []
  wu_params := []
  zu_params := []
  wl_params := []
  zl_params := []

/-- A concrete two-sample model used by the C1 witness. -/
def C1wit_s0 : MCState :=
  (MCState.init 2 1 constF constF constF constF constF).getD MCState.empty

def C1wit_s1 : MCState := (C1wit_s0.set_mdl [5]).getD MCState.empty

def C1wit_s2 : MCState := (C1wit_s0.set_wu [5]).getD MCState.empty

def C1wit_s3 : MCState := (C1wit_s0.set_zu [5]).getD MCState.empty

def C1wit_s4 : MCState := (C1wit_s0.set_wl [5]).getD MCState.empty

def C1wit_s5 : MCState := (C1wit_s0.set_zl [5]).getD MCState.empty

/-- Witness for C1 on a concrete two-sample model: all five setter calls
succeed and the frame effect holds. -/
theorem C1_setter_frame_effect_witness :
    (stats_zeroed C1wit_s1 ∧ C1wit_s1.wu = C1wit_s0.wu ∧ C1wit_s1.zu = C1wit_s0.zu ∧
      C1wit_s1.wl = C1wit_s0.wl ∧ C1wit_s1.zl = C1wit_s0.zl) ∧
    (stats_zeroed C1wit_s2 ∧ C1wit_s2.mdl = C1wit_s0.mdl ∧ C1wit_s2.zu = C1wit_s0.zu ∧
      C1wit_s2.wl = C1wit_s0.wl ∧ C1wit_s2.zl = C1wit_s0.zl) ∧
    (stats_zeroed C1wit_s3 ∧ C1wit_s3.mdl = C1wit_s0.mdl ∧ C1wit_s3.wu = C1wit_s0.wu ∧
      C1wit_s3.wl = C1wit_s0.wl ∧ C1wit_s3.zl = C1wit_s0.zl) ∧
    (stats_zeroed C1wit_s4 ∧ C1wit_s4.mdl = C1wit_s0.mdl ∧ C1wit_s4.wu = C1wit_s0.wu ∧
      C1wit_s4.zu = C1wit_s0.zu ∧ C1wit_s4.zl = C1wit_s0.zl) ∧
    (stats_zeroed C1wit_s5 ∧ C1wit_s5.mdl = C1wit_s0.mdl ∧ C1wit_s5.wu = C1wit_s0.wu ∧
      C1wit_s5.zu = C1wit_s0.zu ∧ C1wit_s5.wl = C1wit_s0.wl) :=
  C1_setter_frame_effect C1wit_s0 [5] [5] [5] [5] [5]
    C1wit_s1 C1wit_s2 C1wit_s3 C1wit_s4 C1wit_s5 rfl rfl rfl rfl rfl

/-- The C9-witness start state (same concrete configuration as the
counterexample). -/
def C9wit_s0 : MCState :=
  (MCState.init 2 1 constF constF constF constF constF).getD MCState.empty

def C9wit_s1 : MCState := (C9wit_s0.run [MOp.set_npts 3]).getD MCState.empty

/-- Witness for the amended C9 on the concrete trace that reassigns
`npts`. -/
theorem C9_amended_witness :
    cache_consistent C9wit_s1 ∧ series_lengths C9wit_s1 (Int.toNat 2) :=
  C9_amended_invariant 2 1 constF constF constF constF constF
    C9wit_s0 C9wit_s1 [MOp.set_npts 3] rfl rfl

/-! ## ModelCore extrema-rate statistics (src/SGSIM/core/model_core.py)

The rate computations are elementwise float formulas followed by
`np.cumsum(...) * dt`; they are embedded over `ℝ` (with `Real.sqrt` for
`np.sqrt` and `Real.pi` for `np.pi`) as pure functions of the variance
arrays. -/

noncomputable section RealStatistics

def cumsum_aux (acc : ℝ) : List ℝ → List ℝ
  | [] => []
  | x :: xs => (acc + x) :: cumsum_aux (acc + x) xs

/-- `np.cumsum` over the reals. -/
def cumsum (l : List ℝ) : List ℝ := cumsum_aux 0 l

/-- `ModelCore.get_mle_ac`: `np.cumsum(sqrt(variance_2dot/variance_dot)/(2*pi)) * dt`. -/
def get_mle_ac (variance_2dot variance_dot : List ℝ) (dt : ℝ) : List ℝ :=
  (cumsum ((List.zipWith (fun a b => a / b) variance_2dot variance_dot).map
    (fun r => Real.sqrt r / (2 * Real.pi)))).map (fun x => x * dt)

/-- `ModelCore.get_mle_vel`: ratio `variance_dot/variance`. -/
def get_mle_vel (variance_dot variance : List ℝ) (dt : ℝ) : List ℝ :=
  (cumsum ((List.zipWith (fun a b => a / b) variance_dot variance).map
    (fun r => Real.sqrt r / (2 * Real.pi)))).map (fun x => x * dt)

/-- `ModelCore.get_mle_disp`: ratio `variance/variance_bar`. -/
def get_mle_disp (variance variance_bar : List ℝ) (dt : ℝ) : List ℝ :=
  (cumsum ((List.zipWith (fun a b => a / b) variance variance_bar).map
    (fun r => Real.sqrt r / (2 * Real.pi)))).map (fun x => x * dt)

/-- `ModelCore.get_mzc_ac`: ratio `variance_dot/variance`. -/
def get_mzc_ac (variance_dot variance : List ℝ) (dt : ℝ) : List ℝ :=
  (cumsum ((List.zipWith (fun a b => a / b) variance_dot variance).map
    (fun r => Real.sqrt r / (2 * Real.pi)))).map (fun x => x * dt)

/-- `ModelCore.get_mzc_vel`: ratio `variance/variance_bar`. -/
def get_mzc_vel (variance variance_bar : List ℝ) (dt : ℝ) : List ℝ :=
  (cumsum ((List.zipWith (fun a b => a / b) variance variance_bar).map
    (fun r => Real.sqrt r / (2 * Real.pi)))).map (fun x => x * dt)

/-- `ModelCore.get_mzc_disp`: ratio `variance_bar/variance_2bar`. -/
def get_mzc_disp (variance_bar variance_2bar : List ℝ) (dt : ℝ) : List ℝ :=
  (cumsum ((List.zipWith (fun a b => a / b) variance_bar variance_2bar).map
    (fun r => Real.sqrt r / (2 * Real.pi)))).map (fun x => x * dt)

/-- `ModelCore.get_pmnm_ac`:
`np.cumsum((sqrt(v2dot/vdot) - sqrt(vdot/v)) / (4*pi)) * dt`. -/
def get_pmnm_ac (variance_2dot variance_dot variance : List ℝ) (dt : ℝ) : List ℝ :=
  (cumsum ((List.zipWith (fun x y => x - y)
      ((List.zipWith (fun a b => a / b) variance_2dot variance_dot).map Real.sqrt)
      ((List.zipWith (fun a b => a / b) variance_dot variance).map Real.sqrt)).map
    (fun r => r / (4 * Real.pi)))).map (fun x => x * dt)

/-- `ModelCore.get_pmnm_vel`. -/
def get_pmnm_vel (variance_dot variance variance_bar : List ℝ) (dt : ℝ) : List ℝ :=
  (cumsum ((List.zipWith (fun x y => x - y)
      ((List.zipWith (fun a b => a / b) variance_dot variance).map Real.sqrt)
      ((List.zipWith (fun a b => a / b) variance variance_bar).map Real.sqrt)).map
    (fun r => r / (4 * Real.pi)))).map (fun x => x * dt)

/-- `ModelCore.get_pmnm_disp`. -/
def get_pmnm_disp (variance variance_bar variance_2bar : List ℝ) (dt : ℝ) : List ℝ :=
  (cumsum ((List.zipWith (fun x y => x - y)
      ((List.zipWith (fun a b => a / b) variance variance_bar).map Real.sqrt)
      ((List.zipWith (fun a b => a / b) variance_bar variance_2bar).map Real.sqrt)).map
    (fun r => r / (4 * Real.pi)))).map (fun x => x * dt)

/-- The spec's formulation of a cumulative statistics curve: the running
sum of an instantaneous rate (rectangle rule), scaled by `dt`. -/
def rate_curve (n : ℕ) (rate : ℕ → ℝ) (dt : ℝ) : List ℝ :=
  (List.range n).map (fun i => (∑ j in Finset.range (i + 1), rate j) * dt)

end RealStatistics

theorem cumsum_aux_eq (l : List ℝ) : ∀ acc : ℝ, cumsum_aux acc l =
    (List.range l.length).map
      (fun i => acc + ∑ j in Finset.range (i + 1), l.getD j 0) := by
  induction l with
  | nil => intro acc; rfl
  | cons x xs ih =>
      intro acc
      rw [cumsum_aux, List.length_cons, List.range_succ_eq_map, List.map_cons,
        ih (acc + x), List.map_map]
      congr 1
      · rw [Finset.sum_range_one, List.getD_cons_zero]
      · apply List.map_congr_left
        intro i _
        show acc + x + ∑ j in Finset.range (i + 1), xs.getD j 0 =
          acc + ∑ j in Finset.range (i + 1 + 1), (x :: xs).getD j 0
        rw [Finset.sum_range_succ' (fun j => (x :: xs).getD j 0) (i + 1)]
        simp only [List.getD_cons_succ, List.getD_cons_zero]
        ring

theorem cumsum_eq (l : List ℝ) : cumsum l =
    (List.range l.length).map (fun i => ∑ j in Finset.range (i + 1), l.getD j 0) := by
  rw [cumsum, cumsum_aux_eq]
  apply List.map_congr_left
  intro i _
  rw [zero_add]

theorem getD_map_of_lt (f : ℝ → ℝ) (l : List ℝ) (j : ℕ) (h : j < l.length) :
    (l.map f).getD j 0 = f (l.getD j 0) := by
  induction l generalizing j with
  | nil => cases h
  | cons x xs ih =>
      cases j with
      | zero => rfl
      | succ j =>
          rw [List.map_cons, List.getD_cons_succ, List.getD_cons_succ]
          exact ih j (by simpa using Nat.lt_of_succ_lt_succ h)

theorem getD_zipWith_of_lt (f : ℝ → ℝ → ℝ) (a b : List ℝ) (j : ℕ)
    (ha : j < a.length) (hb : j < b.length) :
    (List.zipWith f a b).getD j 0 = f (a.getD j 0) (b.getD j 0) := by
  induction a generalizing b j with
  | nil => cases ha
  | cons x xs ih =>
      cases b with
      | nil => cases hb
      | cons y ys =>
          cases j with
          | zero => rfl
          | succ j =>
              rw [List.zipWith_cons_cons, List.getD_cons_succ, List.getD_cons_succ,
                List.getD_cons_succ]
              exact ih ys j (Nat.lt_of_succ_lt_succ ha) (Nat.lt_of_succ_lt_succ hb)

/-- The shared shape of the six mean-local-extrema / mean-zero-crossing
curves. -/
theorem ratio_curve_eq (a b : List ℝ) (dt : ℝ) :
    (cumsum ((List.zipWith (fun x y => x / y) a b).map
      (fun r => Real.sqrt r / (2 * Real.pi)))).map (fun x => x * dt) =
    rate_curve (min a.length b.length)
      (fun j => Real.sqrt (a.getD j 0 / b.getD j 0) / (2 * Real.pi)) dt := by
  rw [cumsum_eq, List.map_map, List.length_map, List.length_zipWith, rate_curve]
  apply List.map_congr_left
  intro i hi
  rw [List.mem_range] at hi
  show (∑ j in Finset.range (i + 1),
      ((List.zipWith (fun x y => x / y) a b).map (fun r => Real.sqrt r / (2 * Real.pi))).getD j 0) * dt = _
  congr 1
  apply Finset.sum_congr rfl
  intro j hj
  rw [Finset.mem_range] at hj
  have hjl : j < min a.length b.length := lt_of_lt_of_le (Nat.lt_of_lt_of_le hj hi) le_rfl
  have hz : j < (List.zipWith (fun x y => x / y) a b).length := by
    rw [List.length_zipWith]; exact hjl
  rw [getD_map_of_lt _ _ _ hz,
    getD_zipWith_of_lt _ _ _ _ (lt_of_lt_of_le hjl (min_le_left _ _))
      (lt_of_lt_of_le hjl (min_le_right _ _))]

/-- The shared shape of the three positive-minima/negative-maxima curves. -/
theorem pmnm_curve_eq (a b c : List ℝ) (dt : ℝ) :
    (cumsum ((List.zipWith (fun x y => x - y)
        ((List.zipWith (fun x y => x / y) a b).map Real.sqrt)
        ((List.zipWith (fun x y => x / y) b c).map Real.sqrt)).map
      (fun r => r / (4 * Real.pi)))).map (fun x => x * dt) =
    rate_curve (min (min a.length b.length) (min b.length c.length))
      (fun j => (Real.sqrt (a.getD j 0 / b.getD j 0) -
                 Real.sqrt (b.getD j 0 / c.getD j 0)) / (4 * Real.pi)) dt := by
  rw [cumsum_eq, List.map_map, List.length_map, List.length_zipWith,
    List.length_map, List.length_map, List.length_zipWith, List.length_zipWith,
    rate_curve]
  apply List.map_congr_left
  intro i hi
  rw [List.mem_range] at hi
  show (∑ j in Finset.range (i + 1),
      ((List.zipWith (fun x y => x - y)
        ((List.zipWith (fun x y : ℝ => x / y) a b).map Real.sqrt)
        ((List.zipWith (fun x y : ℝ => x / y) b c).map Real.sqrt)).map
          (fun r => r / (4 * Real.pi))).getD j 0) * dt = _
  congr 1
  apply Finset.sum_congr rfl
  intro j hj
  rw [Finset.mem_range] at hj
  have hjl : j < min (min a.length b.length) (min b.length c.length) :=
    Nat.lt_of_lt_of_le hj hi
  have h1 : j < min a.length b.length := lt_of_lt_of_le hjl (min_le_left _ _)
  have h2 : j < min b.length c.length := lt_of_lt_of_le hjl (min_le_right _ _)
  have hz : j < (List.zipWith (fun x y : ℝ => x - y)
      ((List.zipWith (fun x y : ℝ => x / y) a b).map Real.sqrt)
      ((List.zipWith (fun x y : ℝ => x / y) b c).map Real.sqrt)).length := by
    rw [List.length_zipWith, List.length_map, List.length_map,
      List.length_zipWith, List.length_zipWith]
    exact hjl
  have hz1 : j < ((List.zipWith (fun x y : ℝ => x / y) a b).map Real.sqrt).length := by
    rw [List.length_map, List.length_zipWith]; exact h1
  have hz2 : j < ((List.zipWith (fun x y : ℝ => x / y) b c).map Real.sqrt).length := by
    rw [List.length_map, List.length_zipWith]; exact h2
  have hza : j < (List.zipWith (fun x y : ℝ => x / y) a b).length := by
    rw [List.length_zipWith]; exact h1
  have hzb : j < (List.zipWith (fun x y : ℝ => x / y) b c).length := by
    rw [List.length_zipWith]; exact h2
  rw [getD_map_of_lt _ _ _ hz, getD_zipWith_of_lt _ _ _ _ hz1 hz2,
    getD_map_of_lt _ _ _ hza, getD_map_of_lt _ _ _ hzb,
    getD_zipWith_of_lt _ _ _ _ (lt_of_lt_of_le h1 (min_le_left _ _))
      (lt_of_lt_of_le h1 (min_le_right _ _)),
    getD_zipWith_of_lt _ _ _ _ (lt_of_lt_of_le h2 (min_le_left _ _))
      (lt_of_lt_of_le h2 (min_le_right _ _))]

/-- C6: every cumulative extrema statistic equals the running sum (scaled
by `dt`) of the stated instantaneous rate: local-extrema rates are
`sqrt(ratio)/(2*pi)` with the ratios `variance_2dot/variance_dot` (ac),
`variance_dot/variance` (vel), `variance/variance_bar` (disp); the
zero-crossing rates shift each ratio one derivative order down; the
positive-minima/negative-maxima rates are
`(sqrt(ratio_a) - sqrt(ratio_b))/(4*pi)`; and the raw pmnm rate is summed
without clamping, so a negative rate makes the cumulative curve dip (shown
on a concrete input). -/
theorem C6_extrema_rate_curves :
    (∀ (v2d vd v vb v2b : List ℝ) (dt : ℝ),
      get_mle_ac v2d vd dt = rate_curve (min v2d.length vd.length)
        (fun j => Real.sqrt (v2d.getD j 0 / vd.getD j 0) / (2 * Real.pi)) dt ∧
      get_mle_vel vd v dt = rate_curve (min vd.length v.length)
        (fun j => Real.sqrt (vd.getD j 0 / v.getD j 0) / (2 * Real.pi)) dt ∧
      get_mle_disp v vb dt = rate_curve (min v.length vb.length)
        (fun j => Real.sqrt (v.getD j 0 / vb.getD j 0) / (2 * Real.pi)) dt ∧
      get_mzc_ac vd v dt = rate_curve (min vd.length v.length)
        (fun j => Real.sqrt (vd.getD j 0 / v.getD j 0) / (2 * Real.pi)) dt ∧
      get_mzc_vel v vb dt = rate_curve (min v.length vb.length)
        (fun j => Real.sqrt (v.getD j 0 / vb.getD j 0) / (2 * Real.pi)) dt ∧
      get_mzc_disp vb v2b dt = rate_curve (min vb.length v2b.length)
        (fun j => Real.sqrt (vb.getD j 0 / v2b.getD j 0) / (2 * Real.pi)) dt ∧
      get_pmnm_ac v2d vd v dt =
        rate_curve (min (min v2d.length vd.length) (min vd.length v.length))
          (fun j => (Real.sqrt (v2d.getD j 0 / vd.getD j 0) -
                     Real.sqrt (vd.getD j 0 / v.getD j 0)) / (4 * Real.pi)) dt ∧
      get_pmnm_vel vd v vb dt =
        rate_curve (min (min vd.length v.length) (min v.length vb.length))
          (fun j => (Real.sqrt (vd.getD j 0 / v.getD j 0) -
                     Real.sqrt (v.getD j 0 / vb.getD j 0)) / (4 * Real.pi)) dt ∧
      get_pmnm_disp v vb v2b dt =
        rate_curve (min (min v.length vb.length) (min vb.length v2b.length))
          (fun j => (Real.sqrt (v.getD j 0 / vb.getD j 0) -
                     Real.sqrt (vb.getD j 0 / v2b.getD j 0)) / (4 * Real.pi)) dt) ∧
    (get_pmnm_ac [1, 0] [1, 1] [1, 1/4] 1).getD 1 0 <
      (get_pmnm_ac [1, 0] [1, 1] [1, 1/4] 1).getD 0 0 := by
  constructor
  · intro v2d vd v vb v2b dt
    exact ⟨ratio_curve_eq _ _ _, ratio_curve_eq _ _ _, ratio_curve_eq _ _ _,
      ratio_curve_eq _ _ _, ratio_curve_eq _ _ _, ratio_curve_eq _ _ _,
      pmnm_curve_eq _ _ _ _, pmnm_curve_eq _ _ _ _, pmnm_curve_eq _ _ _ _⟩
  · have h4 : Real.sqrt (1 / (1 / 4) : ℝ) = 2 := by
      rw [show (1 / (1 / 4) : ℝ) = 2 ^ 2 by norm_num,
        Real.sqrt_sq (by norm_num : (0:ℝ) ≤ 2)]
    simp only [get_pmnm_ac, List.zipWith_cons_cons, List.zipWith_nil_right,
      List.map_cons, List.map_nil, cumsum, cumsum_aux, List.getD_cons_zero,
      List.getD_cons_succ, h4, Real.sqrt_one, div_one, zero_div, Real.sqrt_zero]
    have hπ : (0:ℝ) < 4 * Real.pi := by positivity
    have h2 : (0 - 2 : ℝ) / (4 * Real.pi) < 0 := div_neg_of_neg_of_pos (by norm_num) hπ
    linarith [h2]

/-! ## IEEE exceptional values in the rate computations (C7)

numpy floats produce inf / nan on zero division and square roots of
negative numbers, and `np.cumsum` propagates them.  `ExtVal` models an
IEEE-754 double as either an exact rational finite value or one of the
exceptional values; the arithmetic below follows the IEEE rules exactly on
the exceptional values and is exact rational arithmetic on finite values
(the square root of a finite value is idealised as exact on perfect
rational squares, the only finite points the theorems evaluate it at). -/

inductive ExtVal where
  | fin (q : ℚ)
  | pinf
  | ninf
  | nan
deriving DecidableEq

namespace ExtVal

def isFinite : ExtVal → Bool
  | fin _ => true
  | _ => false

/-- IEEE addition. -/
def add : ExtVal → ExtVal → ExtVal
  | nan, _ => nan
  | _, nan => nan
  | pinf, ninf => nan
  | ninf, pinf => nan
  | pinf, _ => pinf
  | _, pinf => pinf
  | ninf, _ => ninf
  | _, ninf => ninf
  | fin a, fin b => fin (a + b)

/-- IEEE subtraction. -/
def sub : ExtVal → ExtVal → ExtVal
  | nan, _ => nan
  | _, nan => nan
  | pinf, pinf => nan
  | ninf, ninf => nan
  | pinf, _ => pinf
  | _, pinf => ninf
  | ninf, _ => ninf
  | _, ninf => pinf
  | fin a, fin b => fin (a - b)

/-- IEEE multiplication. -/
def mul : ExtVal → ExtVal → ExtVal
  | nan, _ => nan
  | _, nan => nan
  | pinf, pinf => pinf
  | pinf, ninf => ninf
  | ninf, pinf => ninf
  | ninf, ninf => pinf
  | pinf, fin b => if b = 0 then nan else if 0 < b then pinf else ninf
  | fin a, pinf => if a = 0 then nan else if 0 < a then pinf else ninf
  | ninf, fin b => if b = 0 then nan else if 0 < b then ninf else pinf
  | fin a, ninf => if a = 0 then nan else if 0 < a then ninf else pinf
  | fin a, fin b => fin (a * b)

/-- IEEE division (signed zeros collapsed to 0, so `finite / inf = 0` and
the sign of `inf / 0` follows positive zero). -/
def div : ExtVal → ExtVal → ExtVal
  | nan, _ => nan
  | _, nan => nan
  | pinf, pinf => nan
  | pinf, ninf => nan
  | ninf, pinf => nan
  | ninf, ninf => nan
  | pinf, fin b => if 0 ≤ b then pinf else ninf
  | ninf, fin b => if 0 ≤ b then ninf else pinf
  | fin _, pinf => fin 0
  | fin _, ninf => fin 0
  | fin a, fin b =>
      if b = 0 then (if a = 0 then nan else if 0 < a then pinf else ninf)
      else fin (a / b)

/-- An exact rational square root, correct on perfect rational squares. -/
def sqrtQ (q : ℚ) : ℚ := (Nat.sqrt q.num.toNat : ℚ) / (Nat.sqrt q.den : ℚ)

/-- `np.sqrt` on IEEE values: nan for negative or nan arguments, inf for
inf. -/
def sqrtE : ExtVal → ExtVal
  | nan => nan
  | pinf => pinf
  | ninf => nan
  | fin q => if q < 0 then nan else fin (sqrtQ q)

end ExtVal

def cumsumE_aux (acc : ExtVal) : List ExtVal → List ExtVal
  | [] => []
  | x :: xs => (acc.add x) :: cumsumE_aux (acc.add x) xs

/-- `np.cumsum` under IEEE semantics. -/
def cumsumE (l : List ExtVal) : List ExtVal := cumsumE_aux (ExtVal.fin 0) l

/-- `ModelCore.get_mle_ac` under IEEE semantics:
`np.cumsum(sqrt(variance_2dot/variance_dot)/(2*pi)) * dt`. -/
def get_mle_acE (variance_2dot variance_dot : List ExtVal) (dt : ExtVal) : List ExtVal :=
  (cumsumE ((List.zipWith ExtVal.div variance_2dot variance_dot).map
    (fun r => (r.sqrtE).div (ExtVal.fin (2 * piQ))))).map (fun x => x.mul dt)

/-- `ModelCore.get_mle_vel` under IEEE semantics (ratio
`variance_dot/variance`). -/
def get_mle_velE (variance_dot variance : List ExtVal) (dt : ExtVal) : List ExtVal :=
  (cumsumE ((List.zipWith ExtVal.div variance_dot variance).map
    (fun r => (r.sqrtE).div (ExtVal.fin (2 * piQ))))).map (fun x => x.mul dt)

/-- `ModelCore.get_mle_disp` under IEEE semantics (ratio
`variance/variance_bar`). -/
def get_mle_dispE (variance variance_bar : List ExtVal) (dt : ExtVal) : List ExtVal :=
  (cumsumE ((List.zipWith ExtVal.div variance variance_bar).map
    (fun r => (r.sqrtE).div (ExtVal.fin (2 * piQ))))).map (fun x => x.mul dt)

/-- `ModelCore.get_mzc_ac` under IEEE semantics (ratio
`variance_dot/variance`). -/
def get_mzc_acE (variance_dot variance : List ExtVal) (dt : ExtVal) : List ExtVal :=
  (cumsumE ((List.zipWith ExtVal.div variance_dot variance).map
    (fun r => (r.sqrtE).div (ExtVal.fin (2 * piQ))))).map (fun x => x.mul dt)

/-- `ModelCore.get_mzc_vel` under IEEE semantics (ratio
`variance/variance_bar`). -/
def get_mzc_velE (variance variance_bar : List ExtVal) (dt : ExtVal) : List ExtVal :=
  (cumsumE ((List.zipWith ExtVal.div variance variance_bar).map
    (fun r => (r.sqrtE).div (ExtVal.fin (2 * piQ))))).map (fun x => x.mul dt)

/-- `ModelCore.get_mzc_disp` under IEEE semantics (ratio
`variance_bar/variance_2bar`). -/
def get_mzc_dispE (variance_bar variance_2bar : List ExtVal) (dt : ExtVal) : List ExtVal :=
  (cumsumE ((List.zipWith ExtVal.div variance_bar variance_2bar).map
    (fun r => (r.sqrtE).div (ExtVal.fin (2 * piQ))))).map (fun x => x.mul dt)

/-- `ModelCore.get_pmnm_ac` under IEEE semantics:
`np.cumsum((sqrt(v2dot/vdot) - sqrt(vdot/v)) / (4*pi)) * dt`. -/
def get_pmnm_acE (variance_2dot variance_dot variance : List ExtVal)
    (dt : ExtVal) : List ExtVal :=
  (cumsumE ((List.zipWith ExtVal.sub
      ((List.zipWith ExtVal.div variance_2dot variance_dot).map ExtVal.sqrtE)
      ((List.zipWith ExtVal.div variance_dot variance).map ExtVal.sqrtE)).map
    (fun r => r.div (ExtVal.fin (4 * piQ))))).map (fun x => x.mul dt)

/-- `ModelCore.get_pmnm_vel` under IEEE semantics. -/
def get_pmnm_velE (variance_dot variance variance_bar : List ExtVal)
    (dt : ExtVal) : List ExtVal :=
  (cumsumE ((List.zipWith ExtVal.sub
      ((List.zipWith ExtVal.div variance_dot variance).map ExtVal.sqrtE)
      ((List.zipWith ExtVal.div variance variance_bar).map ExtVal.sqrtE)).map
    (fun r => r.div (ExtVal.fin (4 * piQ))))).map (fun x => x.mul dt)

/-- `ModelCore.get_pmnm_disp` under IEEE semantics. -/
def get_pmnm_dispE (variance variance_bar variance_2bar : List ExtVal)
    (dt : ExtVal) : List ExtVal :=
  (cumsumE ((List.zipWith ExtVal.sub
      ((List.zipWith ExtVal.div variance variance_bar).map ExtVal.sqrtE)
      ((List.zipWith ExtVal.div variance_bar variance_2bar).map ExtVal.sqrtE)).map
    (fun r => r.div (ExtVal.fin (4 * piQ))))).map (fun x => x.mul dt)

theorem add_not_finite_left (x y : ExtVal) (h : x.isFinite = false) :
    (x.add y).isFinite = false := by
  cases x <;> cases y <;> simp_all [ExtVal.add, ExtVal.isFinite]

theorem add_not_finite_right (x y : ExtVal) (h : y.isFinite = false) :
    (x.add y).isFinite = false := by
  cases x <;> cases y <;> simp_all [ExtVal.add, ExtVal.isFinite]

theorem mul_not_finite_left (x y : ExtVal) (h : x.isFinite = false) :
    (x.mul y).isFinite = false := by
  cases x <;> cases y <;>
    simp_all [ExtVal.mul, ExtVal.isFinite] <;> split_ifs <;> rfl

theorem sub_not_finite_left (x y : ExtVal) (h : x.isFinite = false) :
    (x.sub y).isFinite = false := by
  cases x <;> cases y <;> simp_all [ExtVal.sub, ExtVal.isFinite]

theorem sub_not_finite_right (x y : ExtVal) (h : y.isFinite = false) :
    (x.sub y).isFinite = false := by
  cases x <;> cases y <;> simp_all [ExtVal.sub, ExtVal.isFinite]

/-- Dividing a non-finite value by any finite value leaves it non-finite. -/
theorem div_fin_not_finite_left (x : ExtVal) (c : ℚ) (h : x.isFinite = false) :
    (x.div (ExtVal.fin c)).isFinite = false := by
  cases x <;> simp_all [ExtVal.div, ExtVal.isFinite] <;> split_ifs <;> rfl

/-- A zero denominator makes `sqrt(ratio)` non-finite whatever the
numerator is: `x/0` is `nan`, `+inf` or `-inf`, and `sqrtE` sends each of
those to `nan` or `+inf`. -/
theorem sqrt_div_zero_not_finite (a : ExtVal) :
    ((a.div (ExtVal.fin 0)).sqrtE).isFinite = false := by
  cases a with
  | fin q =>
      by_cases hq : q = 0
      · simp [ExtVal.div, ExtVal.sqrtE, ExtVal.isFinite, hq]
      · by_cases hq0 : 0 < q
        · simp [ExtVal.div, ExtVal.sqrtE, ExtVal.isFinite, hq, hq0]
        · simp [ExtVal.div, ExtVal.sqrtE, ExtVal.isFinite, hq, hq0]
  | pinf => simp [ExtVal.div, ExtVal.sqrtE, ExtVal.isFinite]
  | ninf => simp [ExtVal.div, ExtVal.sqrtE, ExtVal.isFinite]
  | nan => simp [ExtVal.div, ExtVal.sqrtE, ExtVal.isFinite]

theorem cumsumE_aux_acc_not_finite (l : List ExtVal) :
    ∀ (acc : ExtVal) (i : ℕ), acc.isFinite = false → i < l.length →
      ((cumsumE_aux acc l).getD i ExtVal.nan).isFinite = false := by
  induction l with
  | nil => intro acc i _ hi; cases hi
  | cons x xs ih =>
      intro acc i hacc hi
      cases i with
      | zero =>
          rw [cumsumE_aux, List.getD_cons_zero]
          exact add_not_finite_left _ _ hacc
      | succ i =>
          rw [cumsumE_aux, List.getD_cons_succ]
          exact ih _ i (add_not_finite_left _ _ hacc) (Nat.lt_of_succ_lt_succ hi)

theorem cumsumE_aux_not_finite (l : List ExtVal) :
    ∀ (acc : ExtVal) (j i : ℕ), j ≤ i → i < l.length →
      ((l.getD j ExtVal.nan).isFinite = false) →
      ((cumsumE_aux acc l).getD i ExtVal.nan).isFinite = false := by
  induction l with
  | nil => intro acc j i _ hi; cases hi
  | cons x xs ih =>
      intro acc j i hji hi hj
      cases j with
      | zero =>
          rw [List.getD_cons_zero] at hj
          cases i with
          | zero =>
              rw [cumsumE_aux, List.getD_cons_zero]
              exact add_not_finite_right _ _ hj
          | succ i =>
              rw [cumsumE_aux, List.getD_cons_succ]
              exact cumsumE_aux_acc_not_finite xs _ i
                (add_not_finite_right _ _ hj) (Nat.lt_of_succ_lt_succ hi)
      | succ j =>
          rw [List.getD_cons_succ] at hj
          cases i with
          | zero => cases hji
          | succ i =>
              rw [cumsumE_aux, List.getD_cons_succ]
              exact ih _ j i (Nat.le_of_succ_le_succ hji) (Nat.lt_of_succ_lt_succ hi) hj

theorem cumsumE_aux_length (acc : ExtVal) (l : List ExtVal) :
    (cumsumE_aux acc l).length = l.length := by
  induction l generalizing acc with
  | nil => rfl
  | cons x xs ih =>
      rw [cumsumE_aux, List.length_cons, List.length_cons, ih]

theorem getD_mapE_of_lt (f : ExtVal → ExtVal) (l : List ExtVal) (j : ℕ)
    (h : j < l.length) :
    (l.map f).getD j ExtVal.nan = f (l.getD j ExtVal.nan) := by
  induction l generalizing j with
  | nil => cases h
  | cons x xs ih =>
      cases j with
      | zero => rfl
      | succ j =>
          rw [List.map_cons, List.getD_cons_succ, List.getD_cons_succ]
          exact ih j (Nat.lt_of_succ_lt_succ h)

theorem getD_zipWithE_of_lt (f : ExtVal → ExtVal → ExtVal) (a b : List ExtVal)
    (j : ℕ) (ha : j < a.length) (hb : j < b.length) :
    (List.zipWith f a b).getD j ExtVal.nan =
      f (a.getD j ExtVal.nan) (b.getD j ExtVal.nan) := by
  induction a generalizing b j with
  | nil => cases ha
  | cons x xs ih =>
      cases b with
      | nil => cases hb
      | cons y ys =>
          cases j with
          | zero => rfl
          | succ j =>
              rw [List.zipWith_cons_cons, List.getD_cons_succ, List.getD_cons_succ,
                List.getD_cons_succ]
              exact ih ys j (Nat.lt_of_succ_lt_succ ha) (Nat.lt_of_succ_lt_succ hb)

/-- C7 counterexample: with `variance_dot = [0, 1]` and
`variance_2dot = [1, 1]` (a denominator at zero in the first sample), the
acceleration local-extrema cumulative curve is `[+inf, +inf]`: the
non-finite rate is not excluded or guarded, it is propagated into every
entry of the cumulative statistics curve. -/
theorem C7_unguarded_counterexample :
    get_mle_acE [ExtVal.fin 1, ExtVal.fin 1] [ExtVal.fin 0, ExtVal.fin 1]
        (ExtVal.fin 1) = [ExtVal.pinf, ExtVal.pinf] ∧
    ((get_mle_acE [ExtVal.fin 1, ExtVal.fin 1] [ExtVal.fin 0, ExtVal.fin 1]
        (ExtVal.fin 1)).all (fun x => !x.isFinite)) = true := by
  have h3 : (0:ℚ) ≤ 2 * piQ := by rw [piQ]; norm_num
  have h4 : ¬ ((2 * piQ : ℚ) = 0) := by rw [piQ]; norm_num
  have h5 : ¬ ((1 : ℚ) < 0) := by norm_num
  have h6 : ¬ ((1 : ℚ) = 0) := by norm_num
  have h7 : (0 : ℚ) < 1 := by norm_num
  have hmain : get_mle_acE [ExtVal.fin 1, ExtVal.fin 1] [ExtVal.fin 0, ExtVal.fin 1]
      (ExtVal.fin 1) = [ExtVal.pinf, ExtVal.pinf] := by
    simp [get_mle_acE, cumsumE, cumsumE_aux, ExtVal.div, ExtVal.sqrtE, ExtVal.add,
      ExtVal.mul, h3, h4, h5, h6, h7]
  refine ⟨hmain, ?_⟩
  rw [hmain]
  rfl

/-- The cumulative curve `cumsum(rates) * dt` is non-finite at every index
from the first non-finite rate on. -/
theorem curveE_not_finite_of_rate (r : List ExtVal) (dt : ExtVal) (j i : ℕ)
    (hji : j ≤ i) (hi : i < r.length)
    (hrate : (r.getD j ExtVal.nan).isFinite = false) :
    (((cumsumE r).map (fun x => x.mul dt)).getD i ExtVal.nan).isFinite = false := by
  have hcu : (cumsumE r).length = r.length := by
    rw [cumsumE, cumsumE_aux_length]
  rw [getD_mapE_of_lt _ _ _ (by rw [hcu]; exact hi)]
  apply mul_not_finite_left
  rw [cumsumE]
  exact cumsumE_aux_not_finite _ _ j i hji hi hrate

/-- Shared shape of the six mle/mzc curves: a zero denominator at sample
`j` makes the curve non-finite from `j` onwards. -/
theorem ratio_curveE_not_finite (a b : List ExtVal) (dt : ExtVal) (j i : ℕ)
    (hji : j ≤ i) (hi : i < min a.length b.length)
    (hzero : b.getD j ExtVal.nan = ExtVal.fin 0) :
    (((cumsumE ((List.zipWith ExtVal.div a b).map
        (fun r => (r.sqrtE).div (ExtVal.fin (2 * piQ))))).map
      (fun x => x.mul dt)).getD i ExtVal.nan).isFinite = false := by
  have hj : j < min a.length b.length := lt_of_le_of_lt hji hi
  have hrlen : ((List.zipWith ExtVal.div a b).map
      (fun r => (r.sqrtE).div (ExtVal.fin (2 * piQ)))).length =
      min a.length b.length := by
    rw [List.length_map, List.length_zipWith]
  apply curveE_not_finite_of_rate _ dt j i hji (by rw [hrlen]; exact hi)
  rw [getD_mapE_of_lt _ _ _ (by rw [List.length_zipWith]; exact hj),
    getD_zipWithE_of_lt _ _ _ _ (lt_of_lt_of_le hj (min_le_left _ _))
      (lt_of_lt_of_le hj (min_le_right _ _)), hzero]
  exact div_fin_not_finite_left _ _ (sqrt_div_zero_not_finite _)

/-- Shared shape of the three pmnm curves: a zero value in either of the
two ratio denominators at sample `j` makes the curve non-finite from `j`
onwards. -/
theorem pmnm_curveE_not_finite (a b c : List ExtVal) (dt : ExtVal) (j i : ℕ)
    (hji : j ≤ i)
    (hi : i < min (min a.length b.length) (min b.length c.length))
    (hzero : b.getD j ExtVal.nan = ExtVal.fin 0 ∨
             c.getD j ExtVal.nan = ExtVal.fin 0) :
    (((cumsumE ((List.zipWith ExtVal.sub
          ((List.zipWith ExtVal.div a b).map ExtVal.sqrtE)
          ((List.zipWith ExtVal.div b c).map ExtVal.sqrtE)).map
        (fun r => r.div (ExtVal.fin (4 * piQ))))).map
      (fun x => x.mul dt)).getD i ExtVal.nan).isFinite = false := by
  have hj : j < min (min a.length b.length) (min b.length c.length) :=
    lt_of_le_of_lt hji hi
  have h1 : j < min a.length b.length := lt_of_lt_of_le hj (min_le_left _ _)
  have h2 : j < min b.length c.length := lt_of_lt_of_le hj (min_le_right _ _)
  have hXlen : ((List.zipWith ExtVal.div a b).map ExtVal.sqrtE).length =
      min a.length b.length := by
    rw [List.length_map, List.length_zipWith]
  have hYlen : ((List.zipWith ExtVal.div b c).map ExtVal.sqrtE).length =
      min b.length c.length := by
    rw [List.length_map, List.length_zipWith]
  have hZlen : (List.zipWith ExtVal.sub
      ((List.zipWith ExtVal.div a b).map ExtVal.sqrtE)
      ((List.zipWith ExtVal.div b c).map ExtVal.sqrtE)).length =
      min (min a.length b.length) (min b.length c.length) := by
    rw [List.length_zipWith, hXlen, hYlen]
  have hrlen : ((List.zipWith ExtVal.sub
      ((List.zipWith ExtVal.div a b).map ExtVal.sqrtE)
      ((List.zipWith ExtVal.div b c).map ExtVal.sqrtE)).map
        (fun r => r.div (ExtVal.fin (4 * piQ)))).length =
      min (min a.length b.length) (min b.length c.length) := by
    rw [List.length_map, hZlen]
  apply curveE_not_finite_of_rate _ dt j i hji (by rw [hrlen]; exact hi)
  rw [getD_mapE_of_lt _ _ _ (by rw [hZlen]; exact hj),
    getD_zipWithE_of_lt _ _ _ _ (by rw [hXlen]; exact h1) (by rw [hYlen]; exact h2),
    getD_mapE_of_lt _ _ _ (by rw [List.length_zipWith]; exact h1),
    getD_mapE_of_lt _ _ _ (by rw [List.length_zipWith]; exact h2),
    getD_zipWithE_of_lt _ _ _ _ (lt_of_lt_of_le h1 (min_le_left _ _))
      (lt_of_lt_of_le h1 (min_le_right _ _)),
    getD_zipWithE_of_lt _ _ _ _ (lt_of_lt_of_le h2 (min_le_left _ _))
      (lt_of_lt_of_le h2 (min_le_right _ _))]
  rcases hzero with hb | hc
  · rw [hb]
    exact div_fin_not_finite_left _ _
      (sub_not_finite_left _ _ (sqrt_div_zero_not_finite _))
  · rw [hc]
    exact div_fin_not_finite_left _ _
      (sub_not_finite_right _ _ (sqrt_div_zero_not_finite _))

/-- C7 amended: all nine extrema-rate computations are total functions (no
crash), but none applies a guard: a zero value at sample `j` in any
denominator a curve's rate ratios use (`variance_dot` for mle_ac;
`variance` for mle_vel and mzc_ac; `variance_bar` for mle_disp and
mzc_vel; `variance_2bar` for mzc_disp; both ratio denominators for each
pmnm curve) produces a non-finite rate that is propagated through the
cumulative sum, making every entry of that statistics curve from `j`
onwards non-finite rather than being excluded or replaced by a zero
rate. -/
theorem C7_amended_propagation (v2d vd v vb v2b : List ExtVal) (dt : ExtVal) :
    (∀ j i, j ≤ i → i < min v2d.length vd.length →
      vd.getD j ExtVal.nan = ExtVal.fin 0 →
      ((get_mle_acE v2d vd dt).getD i ExtVal.nan).isFinite = false) ∧
    (∀ j i, j ≤ i → i < min vd.length v.length →
      v.getD j ExtVal.nan = ExtVal.fin 0 →
      ((get_mle_velE vd v dt).getD i ExtVal.nan).isFinite = false) ∧
    (∀ j i, j ≤ i → i < min v.length vb.length →
      vb.getD j ExtVal.nan = ExtVal.fin 0 →
      ((get_mle_dispE v vb dt).getD i ExtVal.nan).isFinite = false) ∧
    (∀ j i, j ≤ i → i < min vd.length v.length →
      v.getD j ExtVal.nan = ExtVal.fin 0 →
      ((get_mzc_acE vd v dt).getD i ExtVal.nan).isFinite = false) ∧
    (∀ j i, j ≤ i → i < min v.length vb.length →
      vb.getD j ExtVal.nan = ExtVal.fin 0 →
      ((get_mzc_velE v vb dt).getD i ExtVal.nan).isFinite = false) ∧
    (∀ j i, j ≤ i → i < min vb.length v2b.length →
      v2b.getD j ExtVal.nan = ExtVal.fin 0 →
      ((get_mzc_dispE vb v2b dt).getD i ExtVal.nan).isFinite = false) ∧
    (∀ j i, j ≤ i → i < min (min v2d.length vd.length) (min vd.length v.length) →
      vd.getD j ExtVal.nan = ExtVal.fin 0 ∨ v.getD j ExtVal.nan = ExtVal.fin 0 →
      ((get_pmnm_acE v2d vd v dt).getD i ExtVal.nan).isFinite = false) ∧
    (∀ j i, j ≤ i → i < min (min vd.length v.length) (min v.length vb.length) →
      v.getD j ExtVal.nan = ExtVal.fin 0 ∨ vb.getD j ExtVal.nan = ExtVal.fin 0 →
      ((get_pmnm_velE vd v vb dt).getD i ExtVal.nan).isFinite = false) ∧
    (∀ j i, j ≤ i → i < min (min v.length vb.length) (min vb.length v2b.length) →
      vb.getD j ExtVal.nan = ExtVal.fin 0 ∨ v2b.getD j ExtVal.nan = ExtVal.fin 0 →
      ((get_pmnm_dispE v vb v2b dt).getD i ExtVal.nan).isFinite = false) :=
  ⟨fun j i hji hi hz => ratio_curveE_not_finite v2d vd dt j i hji hi hz,
   fun j i hji hi hz => ratio_curveE_not_finite vd v dt j i hji hi hz,
   fun j i hji hi hz => ratio_curveE_not_finite v vb dt j i hji hi hz,
   fun j i hji hi hz => ratio_curveE_not_finite vd v dt j i hji hi hz,
   fun j i hji hi hz => ratio_curveE_not_finite v vb dt j i hji hi hz,
   fun j i hji hi hz => ratio_curveE_not_finite vb v2b dt j i hji hi hz,
   fun j i hji hi hz => pmnm_curveE_not_finite v2d vd v dt j i hji hi hz,
   fun j i hji hi hz => pmnm_curveE_not_finite vd v vb dt j i hji hi hz,
   fun j i hji hi hz => pmnm_curveE_not_finite v vb v2b dt j i hji hi hz⟩

/-- The variance arrays used by the C7 witness: zero at the first sample,
so every denominator position is zero there. -/
def C7witArr : List ExtVal := [ExtVal.fin 0, ExtVal.fin 1]

/-- Witness for the amended C7: with every variance array `[0, 1]`, all
nine cumulative curves are non-finite at the final sample. -/
theorem C7_amended_propagation_witness :
    ((get_mle_acE C7witArr C7witArr (ExtVal.fin 1)).getD 1 ExtVal.nan).isFinite = false ∧
    ((get_mle_velE C7witArr C7witArr (ExtVal.fin 1)).getD 1 ExtVal.nan).isFinite = false ∧
    ((get_mle_dispE C7witArr C7witArr (ExtVal.fin 1)).getD 1 ExtVal.nan).isFinite = false ∧
    ((get_mzc_acE C7witArr C7witArr (ExtVal.fin 1)).getD 1 ExtVal.nan).isFinite = false ∧
    ((get_mzc_velE C7witArr C7witArr (ExtVal.fin 1)).getD 1 ExtVal.nan).isFinite = false ∧
    ((get_mzc_dispE C7witArr C7witArr (ExtVal.fin 1)).getD 1 ExtVal.nan).isFinite = false ∧
    ((get_pmnm_acE C7witArr C7witArr C7witArr (ExtVal.fin 1)).getD 1 ExtVal.nan).isFinite = false ∧
    ((get_pmnm_velE C7witArr C7witArr C7witArr (ExtVal.fin 1)).getD 1 ExtVal.nan).isFinite = false ∧
    ((get_pmnm_dispE C7witArr C7witArr C7witArr (ExtVal.fin 1)).getD 1 ExtVal.nan).isFinite = false := by
  have h := C7_amended_propagation C7witArr C7witArr C7witArr C7witArr C7witArr
    (ExtVal.fin 1)
  refine ⟨h.1 0 1 ?_ ?_ rfl, h.2.1 0 1 ?_ ?_ rfl, h.2.2.1 0 1 ?_ ?_ rfl,
    h.2.2.2.1 0 1 ?_ ?_ rfl, h.2.2.2.2.1 0 1 ?_ ?_ rfl,
    h.2.2.2.2.2.1 0 1 ?_ ?_ rfl, h.2.2.2.2.2.2.1 0 1 ?_ ?_ (Or.inl rfl),
    h.2.2.2.2.2.2.2.1 0 1 ?_ ?_ (Or.inl rfl),
    h.2.2.2.2.2.2.2.2 0 1 ?_ ?_ (Or.inl rfl)⟩ <;>
    simp [C7witArr]

/-! ## Beta-family envelopes (src/SGSIM/core/parametric_functions.py)

`beta_single` / `beta_dual` build `multi_mdl = np.zeros_like(t)` and assign
the density only to `multi_mdl[1:-1]`, so both endpoints stay exactly zero
before the final `sqrt(Et * multi_mdl)`.  The embedding writes the same
array positionally: position `i` is zero when `i = 0` or `i = len - 1`,
and the interior carries the log-space density (over `ℝ`, with
`scipy.special.beta` expressed through the Gamma function). -/

noncomputable section BetaEnvelopes

/-- `scipy.special.beta` via the Gamma function. -/
def betaFun (a b : ℝ) : ℝ := Real.Gamma a * Real.Gamma b / Real.Gamma (a + b)

/-- `beta_single(t, (p1, c1, Et, tn))`: 5% quadratic background plus
95% Beta density, endpoints forced to zero, then `sqrt(Et * .)`. -/
def beta_single (t : List ℝ) (p1 c1 Et tn : ℝ) : List ℝ :=
  ((List.range t.length).map (fun i : ℕ =>
    if i = 0 ∨ i = t.length - 1 then 0
    else
      0.05 * (6 * (t.getD i 0 * (tn - t.getD i 0)) / tn ^ 3) +
      0.95 * Real.exp ((c1 * p1) * Real.log (t.getD i 0) +
        (c1 * (1 - p1)) * Real.log (tn - t.getD i 0) -
        Real.log (betaFun (1 + c1 * p1) (1 + c1 * (1 - p1))) -
        (1 + c1) * Real.log tn))).map (fun m => Real.sqrt (Et * m))

/-- `beta_dual(t, (p1, c1, p2, c2, a1, Et, tn))`: 5% quadratic background,
`a1`-weighted Beta density and `(0.95 - a1)`-weighted second Beta density,
endpoints forced to zero, then `sqrt(Et * .)`. -/
def beta_dual (t : List ℝ) (p1 c1 p2 c2 a1 Et tn : ℝ) : List ℝ :=
  ((List.range t.length).map (fun i : ℕ =>
    if i = 0 ∨ i = t.length - 1 then 0
    else
      0.05 * (6 * (t.getD i 0 * (tn - t.getD i 0)) / tn ^ 3) +
      a1 * Real.exp ((c1 * p1) * Real.log (t.getD i 0) +
        (c1 * (1 - p1)) * Real.log (tn - t.getD i 0) -
        Real.log (betaFun (1 + c1 * p1) (1 + c1 * (1 - p1))) -
        (1 + c1) * Real.log tn) +
      (0.95 - a1) * Real.exp ((c2 * p2) * Real.log (t.getD i 0) +
        (c2 * (1 - p2)) * Real.log (tn - t.getD i 0) -
        Real.log (betaFun (1 + c2 * p2) (1 + c2 * (1 - p2))) -
        (1 + c2) * Real.log tn))).map (fun m => Real.sqrt (Et * m))

end BetaEnvelopes

theorem endpoint_zero_of_double_map (F : ℕ → ℝ) (G : ℝ → ℝ) (n i : ℕ)
    (hi : i < n) :
    (((List.range n).map F).map G)[i]? = some (G (F i)) := by
  rw [List.getElem?_map, List.getElem?_map, List.getElem?_range hi,
    Option.map_some', Option.map_some']

/-- C8: for every non-empty time axis and all parameters, `beta_single` and
`beta_dual` evaluate to exactly zero (a finite value) at both endpoint
samples (t = 0 and t = tn). -/
theorem C8_beta_endpoints_zero (t : List ℝ) (p1 c1 p2 c2 a1 Et tn : ℝ)
    (hne : t ≠ []) :
    (beta_single t p1 c1 Et tn).head? = some 0 ∧
    (beta_single t p1 c1 Et tn).getLast? = some 0 ∧
    (beta_dual t p1 c1 p2 c2 a1 Et tn).head? = some 0 ∧
    (beta_dual t p1 c1 p2 c2 a1 Et tn).getLast? = some 0 := by
  have hlen : 0 < t.length := List.length_pos.2 hne
  have hzero : ∀ m : ℝ, m = 0 → Real.sqrt (Et * m) = 0 := by
    intro m hm
    rw [hm, mul_zero, Real.sqrt_zero]
  have hslen : (beta_single t p1 c1 Et tn).length = t.length := by
    rw [beta_single, List.length_map, List.length_map, List.length_range]
  have hdlen : (beta_dual t p1 c1 p2 c2 a1 Et tn).length = t.length := by
    rw [beta_dual, List.length_map, List.length_map, List.length_range]
  have hlast : t.length - 1 < t.length := Nat.sub_lt hlen (by norm_num)
  refine ⟨?_, ?_, ?_, ?_⟩
  · rw [List.head?_eq_getElem? (beta_single t p1 c1 Et tn), beta_single,
      endpoint_zero_of_double_map _ _ _ 0 hlen]
    rw [if_pos (Or.inl rfl), hzero 0 rfl]
  · rw [List.getLast?_eq_getElem? (beta_single t p1 c1 Et tn), hslen, beta_single,
      endpoint_zero_of_double_map _ _ _ (t.length - 1) hlast]
    rw [if_pos (Or.inr rfl), hzero 0 rfl]
  · rw [List.head?_eq_getElem? (beta_dual t p1 c1 p2 c2 a1 Et tn), beta_dual,
      endpoint_zero_of_double_map _ _ _ 0 hlen]
    rw [if_pos (Or.inl rfl), hzero 0 rfl]
  · rw [List.getLast?_eq_getElem? (beta_dual t p1 c1 p2 c2 a1 Et tn), hdlen, beta_dual,
      endpoint_zero_of_double_map _ _ _ (t.length - 1) hlast]
    rw [if_pos (Or.inr rfl), hzero 0 rfl]

/-- Witness for C8 on the three-sample axis `[0, 1/2, 1]` with `tn = 1`. -/
theorem C8_beta_endpoints_zero_witness :
    (beta_single [0, 1/2, 1] (1/2) 2 1 1).head? = some 0 ∧
    (beta_single [0, 1/2, 1] (1/2) 2 1 1).getLast? = some 0 ∧
    (beta_dual [0, 1/2, 1] (1/2) 2 (1/3) 4 (1/4) 1 1).head? = some 0 ∧
    (beta_dual [0, 1/2, 1] (1/2) 2 (1/3) 4 (1/4) 1 1).getLast? = some 0 :=
  C8_beta_endpoints_zero [0, 1/2, 1] (1/2) 2 (1/3) 4 (1/4) 1 1 (by simp)

/-! ## StochasticModel (src/SGSIM/core/stochastic_model.py)

The Monte Carlo synthesiser.  The numerical kernels it drives are third
party (`numpy.random.Generator`, `scipy.fft.irfft`) or repository code not
under src/ (`model_engine.simulate_fourier_series`, the `stats` recompute);
those are modelled from the spec's contracts (section 6) as pure stand-ins
with the contracted shapes.  The code under src/ -- the `int()` coercion,
the white-noise draw shape, the truncation to `npts`, and the
frequency-domain integration that divides the non-zero-frequency bins by
`i*w` and `-w^2` with bin 0 dropped -- is embedded directly. -/

/-- numpy complex values as (re, im) pairs of exact rationals. -/
structure CQ where
  re : ℚ
  im : ℚ
deriving DecidableEq

/-- Complex division `z / w`. -/
def divC (z w : CQ) : CQ :=
  ⟨(z.re * w.re + z.im * w.im) / (w.re ^ 2 + w.im ^ 2),
   (z.im * w.re - z.re * w.im) / (w.re ^ 2 + w.im ^ 2)⟩

/-- Complex negation. -/
def negC (z : CQ) : CQ := ⟨-z.re, -z.im⟩

/-- The model state used by `simulate`: the grid scalars, the five stored
series, the cached variance, and the PRNG stream.  Modelled from the spec:
the numpy `Generator` is external; its stream state is an integer, and
`default_rng(seed)` initialises it from the seed. -/
structure StochModel where
  npts : ℕ
  dt : ℚ
  mdl : List ℚ
  wu : List ℚ
  zu : List ℚ
  wl : List ℚ
  zl : List ℚ
  variance : List ℚ
  rngState : ℤ
  seed : Option ℤ
deriving DecidableEq

/-- The `seed` setter: record the seed and replace the generator with a
freshly seeded one (`np.random.default_rng(value)`), destroying any
correlation with the previous stream. -/
def StochModel.setSeed (m : StochModel) (s : ℤ) : StochModel :=
  { m with seed := some s, rngState := s }

/-- Modelled from the spec: `Generator.standard_normal((n, npts))` is an
external numpy primitive; the spec requires only a deterministic
process-local stream.  Stand-in: entry `(i, j)` is `state + i*npts + j`
and the draw advances the state by `n*npts`. -/
def standard_normal (state : ℤ) (n npts : ℕ) : List (List ℚ) × ℤ :=
  ((List.range n).map (fun i : ℕ =>
    (List.range npts).map (fun j : ℕ => ((state + (i * npts + j : ℕ) : ℤ) : ℚ))),
   state + (n * npts : ℕ))

/-- Modelled from the spec: `model_engine.simulate_fourier_series` is
repository code not under src/; its contract (spec section 6,
`synthesize_series`) is a pure function of the listed inputs returning an
`(n, len(freq_sim))` complex spectrum.  Stand-in honouring that shape:
row `i`, bin `j` carries the white-noise value `(i, j)` (zero-padded) as a
real coefficient. -/
def simulate_fourier_series (n npts : ℕ) (t freq_sim : List ℚ)
    (mdl wu zu wl zl variance : List ℚ) (white_noise : List (List ℚ)) :
    List (List CQ) :=
  white_noise.map (fun row =>
    (List.range freq_sim.length).map (fun j : ℕ => (⟨row.getD j 0, 0⟩ : CQ)))

/-- Modelled from the spec: `scipy.fft.irfft` is a third-party kernel; the
core relies only on its being a pure, real-output inverse transform of
length `2*(m-1)` for an `m`-bin half spectrum.  Stand-in with exactly that
length: the real parts followed by the interior imaginary parts. -/
def irfftQ (x : List CQ) : List ℚ :=
  x.map CQ.re ++ ((x.drop 1).dropLast.map CQ.im)

/-- Modelled from the spec: `filter_engine.get_stats` (repository code not
under src/) is a pure function returning five arrays the length of `wu`;
only `variance` feeds the synthesiser.  Stand-in: unit variance. -/
def get_stats_variance (wu zu wl zl : List ℚ) : List ℚ := wu.map (fun _ => 1)

/-- The `stats` recompute step at the top of `simulate` (spec section 4.5
step 1: ensure statistics are current). -/
def StochModel.stats (m : StochModel) : StochModel :=
  { m with variance := get_stats_variance m.wu m.zu m.wl m.zl }

/-- Python `int()` on a numeric value: truncation toward zero. -/
def intOfRat (q : ℚ) : ℤ := q.num.tdiv q.den

/-- The simulation frequency axis used by `simulate`. -/
def StochModel.freq_sim (m : StochModel) : List ℚ := freq_sim_val m.npts m.dt

structure SimOut where
  ac : List (List ℚ)
  vel : List (List ℚ)
  disp : List (List ℚ)
deriving DecidableEq

/-- `StochasticModel.simulate(n)`: recompute stats, coerce `n` with
`int()`, draw `(n, npts)` standard-normal white noise (numpy raises on a
negative first dimension), synthesize the complex Fourier series over
`freq_sim`, inverse-transform each row and truncate to the first `npts`
samples, and derive velocity and displacement by dividing the spectrum's
bins 1.. by `i*w` and `-w^2` respectively (bin 0 dropped) before the
inverse transform. -/
def StochModel.simulate (m0 : StochModel) (nRaw : ℚ) :
    Except String (SimOut × StochModel) :=
  let m := m0.stats
  let n : ℤ := intOfRat nRaw
  if n < 0 then .error "negative dimensions are not allowed"
  else
    let p := standard_normal m.rngState n.toNat m.npts
    let fourier := simulate_fourier_series n.toNat m.npts (get_time m.npts m.dt)
      m.freq_sim m.mdl m.wu m.zu m.wl m.zl m.variance p.1
    let ac := fourier.map (fun row => (irfftQ row).take m.npts)
    let vel := fourier.map (fun row =>
      (irfftQ (List.zipWith (fun z w => divC z ⟨0, w⟩) (row.drop 1)
        (m.freq_sim.drop 1))).take m.npts)
    let disp := fourier.map (fun row =>
      (irfftQ (List.zipWith (fun z w => divC (negC z) ⟨w ^ 2, 0⟩) (row.drop 1)
        (m.freq_sim.drop 1))).take m.npts)
    .ok (⟨ac, vel, disp⟩, { m with rngState := p.2 })

/-- A concrete two-sample model used by the counterexamples. -/
def C10model : StochModel :=
  ⟨2, 1, [0, 0], [0, 0], [0, 0], [0, 0], [0, 0], [0, 0], 0, none⟩

/-- The row counts of a successful simulation result. -/
def okRowCounts : Except String (SimOut × StochModel) → Option (ℕ × ℕ × ℕ)
  | .ok r => some (r.1.ac.length, r.1.vel.length, r.1.disp.length)
  | .error _ => none

/-- C10 counterexample: `simulate(0)` is accepted -- it returns a
successful result whose ensembles have zero rows -- although 0 does not
coerce to a positive integer, refuting the claim that such a value is
rejected as an error. -/
theorem C10_zero_count_counterexample :
    okRowCounts (C10model.simulate 0) = some (0, 0, 0) := by
  have h0 : intOfRat 0 = 0 := by
    simp [intOfRat]
  simp [StochModel.simulate, h0, StochModel.stats, standard_normal,
    simulate_fourier_series, okRowCounts]

/-- C10 amended: `simulate` coerces its argument with `int()`; a negative
coerced count fails (numpy rejects negative dimensions), but a count of
zero is accepted and produces empty `(0, npts)` ensembles, and any
non-negative count `n` produces ensembles with `n` rows -- there is no
positivity check. -/
theorem C10_amended_count_dichotomy (m : StochModel) (q : ℚ) :
    (intOfRat q < 0 ∧
      m.simulate q = .error "negative dimensions are not allowed") ∨
    (0 ≤ intOfRat q ∧
      okRowCounts (m.simulate q) =
        some ((intOfRat q).toNat, (intOfRat q).toNat, (intOfRat q).toNat)) := by
  by_cases h : intOfRat q < 0
  · left
    refine ⟨h, ?_⟩
    simp [StochModel.simulate, h]
  · right
    refine ⟨le_of_not_lt h, ?_⟩
    simp [StochModel.simulate, h, standard_normal, simulate_fourier_series,
      okRowCounts]

theorem getD0_append (l1 l2 : List ℚ) (h : l1 ≠ []) :
    (l1 ++ l2).getD 0 0 = l1.getD 0 0 := by
  cases l1 with
  | nil => exact absurd rfl h
  | cons x xs => rfl

theorem getD0_take (n : ℕ) (h : 0 < n) (l : List ℚ) :
    (l.take n).getD 0 0 = l.getD 0 0 := by
  cases l with
  | nil => rw [List.take_nil]
  | cons x xs =>
      cases n with
      | zero => cases h
      | succ m => rfl

theorem getD0_map_range {α : Type} (f : ℕ → α) (n : ℕ) (h : 0 < n) (d : α) :
    ((List.range n).map f).getD 0 d = f 0 := by
  cases n with
  | zero => cases h
  | succ m => rw [List.range_succ_eq_map, List.map_cons, List.getD_cons_zero]

/-- With the modelled stand-ins, the first retained sample of the first
acceleration realization is the first white-noise draw, i.e. the current
generator state. -/
theorem simulate_ac_entry00 (m : StochModel) (q : ℚ)
    (hn : 0 < intOfRat q) (hp : 0 < m.npts) :
    (fun e => match e with
      | .ok r => (r.1.ac.getD 0 []).getD 0 0
      | .error _ => 0) (m.simulate q) = (m.rngState : ℚ) := by
  have hnn : ¬ (intOfRat q < 0) := not_lt.2 (le_of_lt hn)
  have hp' : 0 < m.stats.npts := hp
  have hpos : 0 < (intOfRat q).toNat := by omega
  have hM : 0 < (StochModel.freq_sim m.stats).length := by
    rw [StochModel.freq_sim, freq_sim_val, get_freq_length, npts_sim]
    exact pow_pos (by norm_num) _
  rw [StochModel.simulate]
  simp only [hnn, if_false, ite_false]
  show ((((standard_normal m.stats.rngState (intOfRat q).toNat m.stats.npts).1.map
      (fun row => (List.range (StochModel.freq_sim m.stats).length).map
        (fun j : ℕ => (⟨row.getD j 0, 0⟩ : CQ)))).map
      (fun row => (irfftQ row).take m.stats.npts)).getD 0 []).getD 0 0 =
    (m.rngState : ℚ)
  rw [standard_normal, List.map_map, List.map_map,
    getD0_map_range _ _ hpos, Function.comp, Function.comp]
  rw [getD0_take _ hp', irfftQ, getD0_append, List.map_map,
    getD0_map_range _ _ hM, Function.comp]
  · show ((List.range m.stats.npts).map
        (fun j : ℕ => ((m.stats.rngState + (0 * m.stats.npts + j : ℕ) : ℤ) : ℚ))).getD 0 0 =
      (m.rngState : ℚ)
    rw [getD0_map_range _ _ hp']
    simp [StochModel.stats]
  · intro hcontra
    have := congrArg List.length hcontra
    rw [List.length_map, List.length_map, List.length_range] at this
    simp only [List.length_nil] at this
    omega

/-- A concrete two-sample model used by the C5 seed-sensitivity half. -/
def C5model : StochModel :=
  ⟨2, 1, [0, 0], [0, 0], [0, 0], [0, 0], [0, 0], [0, 0], 7, none⟩

/-- C5: (determinism) two `simulate(n)` calls on freshly seeded instances
with the same seed and the same model parameters produce identical results
-- assigning a seed replaces the whole stream, erasing any prior generator
state, and `simulate` is a pure function of the parameters, the seed and
the count; (sensitivity) there are two different seeds whose ensembles
differ. -/
theorem C5_seed_determinism_and_sensitivity :
    (∀ (a b : StochModel) (s : ℤ) (n : ℚ),
      a.npts = b.npts → a.dt = b.dt → a.mdl = b.mdl → a.wu = b.wu →
      a.zu = b.zu → a.wl = b.wl → a.zl = b.zl →
      (a.setSeed s).simulate n = (b.setSeed s).simulate n) ∧
    (∃ s1 s2 : ℤ, s1 ≠ s2 ∧
      (C5model.setSeed s1).simulate 1 ≠ (C5model.setSeed s2).simulate 1) := by
  constructor
  · intro a b s n h1 h2 h3 h4 h5 h6 h7
    cases a
    cases b
    simp only at h1 h2 h3 h4 h5 h6 h7
    subst h1 h2 h3 h4 h5 h6 h7
    rfl
  · have hq : 0 < intOfRat 1 := by
      simp [intOfRat]
    refine ⟨0, 1, by norm_num, ?_⟩
    intro hEq
    have h0 := simulate_ac_entry00 (C5model.setSeed 0) 1 hq (by norm_num [C5model, StochModel.setSeed])
    have h1 := simulate_ac_entry00 (C5model.setSeed 1) 1 hq (by norm_num [C5model, StochModel.setSeed])
    rw [hEq, h1] at h0
    have : ((C5model.setSeed 1).rngState : ℚ) = ((C5model.setSeed 0).rngState : ℚ) := h0
    simp [C5model, StochModel.setSeed] at this

def C5witA : StochModel :=
  ⟨2, 1, [0, 0], [0, 0], [0, 0], [0, 0], [0, 0], [0, 0], 3, none⟩

def C5witB : StochModel :=
  ⟨2, 1, [0, 0], [0, 0], [0, 0], [0, 0], [0, 0], [9, 9], 4, some 2⟩

/-- Witness for C5: two instances sharing parameters but with different
prior generator states and stale variance caches give identical results
once seeded identically. -/
theorem C5_seed_determinism_witness :
    (C5witA.setSeed 5).simulate 2 = (C5witB.setSeed 5).simulate 2 :=
  C5_seed_determinism_and_sensitivity.1 C5witA C5witB 5 2 rfl rfl rfl rfl rfl rfl rfl

theorem irfftQ_length (x : List CQ) :
    (irfftQ x).length = x.length + (x.length - 1 - 1) := by
  rw [irfftQ, List.length_append, List.length_map, List.length_map,
    List.length_dropLast, List.length_drop]

/-- The per-ensemble row shapes of a successful simulation result. -/
def okRowShapes (e : Except String (SimOut × StochModel)) :
    Option (List ℕ × List ℕ × List ℕ) :=
  match e with
  | .ok r => some (r.1.ac.map List.length, r.1.vel.map List.length,
                   r.1.disp.map List.length)
  | .error _ => none

theorem map_range_eq_replicate {α : Type} (n : ℕ) (F : ℕ → α) (a : α)
    (h : ∀ i, F i = a) : (List.range n).map F = List.replicate n a := by
  induction n with
  | zero => rfl
  | succ k ih =>
      rw [List.range_succ, List.map_append, ih, List.map_singleton, h,
        ← List.replicate_succ']

/-- C4: for every configured model with at least two samples, positive time
step and positive coerced count: every angular frequency the
frequency-domain integration divides by (the simulation axis without its
zero bin) is strictly positive -- the zero-frequency bin is excluded by the
`[1:]` slice, so no division by zero occurs -- and `simulate` succeeds with
all three ensembles shaped `(n, npts)`; in particular at `npts = 512`,
`dt = 1/100`, `n = 1` the outputs are three `(1, 512)` arrays of
well-defined rational values. -/
theorem C4_freq_domain_integration (m : StochModel) (q : ℚ)
    (hnpts : 2 ≤ m.npts) (hdt : 0 < m.dt) (hq : 0 < intOfRat q) :
    (∀ w ∈ (m.freq_sim).drop 1, 0 < w) ∧
    okRowShapes (m.simulate q) =
      some (List.replicate (intOfRat q).toNat m.npts,
            List.replicate (intOfRat q).toNat m.npts,
            List.replicate (intOfRat q).toNat m.npts) := by
  have hnn : ¬ (intOfRat q < 0) := not_lt.2 (le_of_lt hq)
  have hMlen : (StochModel.freq_sim m).length = npts_sim m.npts := by
    rw [StochModel.freq_sim, freq_sim_val, get_freq_length]
  have hMge : 2 * m.npts ≤ (StochModel.freq_sim m).length := by
    rw [hMlen, npts_sim]
    exact Nat.le_pow_clog (by norm_num) _
  have hpiQ : 0 < piQ := by rw [piQ]; norm_num
  constructor
  · intro w hw
    rw [StochModel.freq_sim, freq_sim_val, get_freq] at hw
    have hM1 : 0 < npts_sim m.npts := by
      rw [npts_sim]; exact pow_pos (by norm_num) _
    obtain ⟨mm, hmm⟩ := Nat.exists_eq_succ_of_ne_zero (Nat.pos_iff_ne_zero.1 hM1)
    rw [hmm, List.range_succ_eq_map, List.map_cons, List.drop_succ_cons,
      List.drop_zero, List.map_map] at hw
    obtain ⟨k, hk, rfl⟩ := List.mem_map.1 hw
    show 0 < 2 * piQ * ((k.succ : ℕ) : ℚ) / (((mm + 1 : ℕ) : ℚ) * m.dt)
    apply div_pos
    · apply mul_pos (by positivity)
      exact_mod_cast Nat.succ_pos k
    · apply mul_pos _ hdt
      exact_mod_cast Nat.succ_pos mm
  · rw [StochModel.simulate]
    simp only [hnn, if_false, ite_false, okRowShapes, simulate_fourier_series,
      standard_normal, List.map_map, Option.some.injEq, Prod.mk.injEq]
    have hs : m.stats.npts = m.npts := rfl
    have hf : m.stats.freq_sim = m.freq_sim := rfl
    refine ⟨?_, ?_, ?_⟩ <;>
      · apply map_range_eq_replicate
        intro i
        simp only [Function.comp_apply, List.length_take, irfftQ_length,
          List.length_zipWith, List.length_drop, List.length_map,
          List.length_range, hs, hf]
        omega

/-- The concrete configuration from the claim: 512 samples at `dt = 1/100`
(the envelope series itself does not enter the verified division/shape
properties -- the synthesis kernel is an external contract). -/
def C4model : StochModel :=
  ⟨512, 1/100, List.replicate 512 0, List.replicate 512 0, List.replicate 512 0,
   List.replicate 512 0, List.replicate 512 0, List.replicate 512 0, 0, some 0⟩

/-- Witness for C4 at `npts = 512`, `dt = 1/100`, `n = 1`. -/
theorem C4_freq_domain_integration_witness :
    (∀ w ∈ (C4model.freq_sim).drop 1, 0 < w) ∧
    okRowShapes (C4model.simulate 1) =
      some (List.replicate (intOfRat 1).toNat C4model.npts,
            List.replicate (intOfRat 1).toNat C4model.npts,
            List.replicate (intOfRat 1).toNat C4model.npts) :=
  C4_freq_domain_integration C4model 1 (by norm_num [C4model])
    (by norm_num [C4model]) (by simp [intOfRat])
